import Mathlib

set_option maxRecDepth 100000
set_option maxHeartbeats 1000000

/-!
# Verification of the token-authentication core of the AI_Assessment backend

This file is a shallow embedding, in Lean 4, of the token-based
authentication subsystem of the AI_Assessment repository:

* `backend/app/core/security.py` — the hand-rolled JWT encode / decode /
  verify pipeline (`_urlsafe_b64encode`, `_urlsafe_b64decode`,
  `_hmac_sha256`, `_encode_jwt`, `_decode_jwt`, `create_access_token`,
  `create_refresh_token`, `decode_token`), plus the bcrypt password
  wrappers (`get_password_hash`, `verify_password`);
* `backend/app/core/config.py` — the `Settings` object and its startup
  validation;
* `backend/app/core/dependencies.py` — the token-consuming part of
  `get_current_user`.

Modelling conventions:

* A Python `str` is a `List Nat` of Unicode code points; a Python `bytes`
  is a `List Nat` of bytes (`< 256`).  `pystr` turns a Lean string literal
  into the code-point list of the corresponding Python string.
* Python exceptions are explicit: fallible operations return
  `Except PyErr α`.  `PyErr` distinguishes the repository's `TokenError`
  (an HTTP-401 exception) from ordinary built-in exceptions
  (`ValueError` and its library subclasses, `TypeError`,
  `AttributeError`), because the decode path catches only specific
  classes and everything else escapes to the caller.
* The external cryptographic primitives that the code calls with a fixed,
  published semantics — SHA-256, HMAC (via `hashlib` / `hmac`), base64url
  (via `base64`), UTF-8, JSON (via `json`) — are implemented concretely
  and executably below, following their published specifications
  (FIPS 180-4, FIPS 198-1, RFC 4648, RFC 3629, and CPython's `json` /
  `base64` / `binascii` behaviour).  The primitives whose value is
  unpredictable or out of scope (RSA signing, the bcrypt Blowfish core,
  salt generation) are parameters of the model.
-/

namespace AIAssessment

/-! ## Python strings as code-point lists -/

/-- The code points of a Lean string literal, as the model of the
corresponding Python `str`. -/
def pystr (s : String) : List Nat := s.data.map (fun c => c.toNat)

/-- A valid Unicode string: every element is a Unicode scalar value
(a code point below `0x110000` that is not a UTF-16 surrogate).  Python
`str` values decoded from any real transport satisfy this. -/
def ValidStr (s : List Nat) : Prop :=
  ∀ c ∈ s, c < 1114112 ∧ ¬ (55296 ≤ c ∧ c ≤ 57343)

instance (s : List Nat) : Decidable (ValidStr s) := by
  unfold ValidStr; infer_instance

/-! ## Python exceptions -/

/-- The repository's `TokenError` details, one per `raise TokenError(...)`
site in `security.py`.  Every `TokenError` is an `HTTPException` with
status 401. -/
inductive TokenDetail
  | structureInvalid      -- "Token structure invalid"
  | signatureInvalid      -- "Token signature invalid"
  | payloadInvalid        -- "Token payload invalid"
  | expired               -- "Token expired"
  | unsupportedAlgorithm  -- "Unsupported JWT algorithm: ..."
  | rs256RequiresKeyPaths -- "RS256 requires RSA key paths to be set ..."
  | rs256RequiresPrivateKey -- "RS256 requires private key"
  | rs256RequiresPublicKey  -- "RS256 requires public key"
  | keyLoadFailed         -- "Failed to load RSA keys: ..."
  deriving DecidableEq, Repr

/-- Kinds of Python `ValueError`: the plain class and the library
subclasses that matter here.  `binascii.Error`, `json.JSONDecodeError`,
`UnicodeEncodeError` and `UnicodeDecodeError` are all subclasses of
`ValueError` in CPython, but `_decode_jwt` catches only
`json.JSONDecodeError`, so the distinction is observable. -/
inductive VEKind
  | plain          -- ValueError proper (e.g. bcrypt "Invalid salt", float())
  | binascii       -- binascii.Error from base64 decoding
  | jsonDecode     -- json.JSONDecodeError
  | unicodeEncode  -- UnicodeEncodeError from str.encode("utf-8")
  | unicodeDecode  -- UnicodeDecodeError from bytes decoding
  deriving DecidableEq, Repr

/-- A Python exception as observed by the code under analysis.
`httpUnauthorized` is the plain `HTTPException(401)` that
`get_current_user` raises for a missing subject. -/
inductive PyErr
  | tokenError (d : TokenDetail)
  | valueError (k : VEKind)
  | typeError
  | attributeError
  | httpUnauthorized
  deriving DecidableEq, Repr

/-- Whether `except ValueError` catches this exception (all `VEKind`s are
`ValueError` subclasses; `TokenError` is an `HTTPException`, not one). -/
def PyErr.isValueError : PyErr → Bool
  | .valueError _ => true
  | _ => false

/-- Whether `except json.JSONDecodeError` catches this exception. -/
def PyErr.isJSONDecodeError : PyErr → Bool
  | .valueError .jsonDecode => true
  | _ => false

/-- The HTTP status carried by a `TokenError`
(`status.HTTP_401_UNAUTHORIZED` in its constructor). -/
def tokenErrorStatusCode : Nat := 401

/-! ## SHA-256 (FIPS 180-4), over byte lists

`security.py` computes HMAC-SHA256 through `hashlib.sha256`; the model
implements the function concretely so that tokens evaluate inside Lean.
Word arithmetic is `Nat` reduced `% 2^32`. -/

/-- `2^32`, the word modulus. -/
def M32 : Nat := 4294967296

/-- Right-rotation of a 32-bit word by `n` (for `0 ≤ n ≤ 32`). -/
def rotr32 (n x : Nat) : Nat := (x / 2 ^ n + (x % 2 ^ n) * 2 ^ (32 - n)) % M32

/-- Logical right shift of a 32-bit word. -/
def shr32 (n x : Nat) : Nat := x / 2 ^ n

/-- Three-way XOR. -/
def xor3 (a b c : Nat) : Nat := Nat.xor (Nat.xor a b) c

/-- `Ch(x,y,z)` of FIPS 180-4 (complement via XOR with the 32-bit mask). -/
def ch32 (x y z : Nat) : Nat := Nat.xor (Nat.land x y) (Nat.land (Nat.xor x 4294967295) z)

/-- `Maj(x,y,z)` of FIPS 180-4. -/
def maj32 (x y z : Nat) : Nat :=
  Nat.xor (Nat.xor (Nat.land x y) (Nat.land x z)) (Nat.land y z)

/-- `Σ₀`. -/
def bsig0 (x : Nat) : Nat := xor3 (rotr32 2 x) (rotr32 13 x) (rotr32 22 x)

/-- `Σ₁`. -/
def bsig1 (x : Nat) : Nat := xor3 (rotr32 6 x) (rotr32 11 x) (rotr32 25 x)

/-- `σ₀`. -/
def ssig0 (x : Nat) : Nat := xor3 (rotr32 7 x) (rotr32 18 x) (shr32 3 x)

/-- `σ₁`. -/
def ssig1 (x : Nat) : Nat := xor3 (rotr32 17 x) (rotr32 19 x) (shr32 10 x)

/-- The 64 SHA-256 round constants. -/
def K256 : List Nat :=
  [1116352408, 1899447441, 3049323471, 3921009573, 961987163, 1508970993,
   2453635748, 2870763221, 3624381080, 310598401, 607225278, 1426881987,
   1925078388, 2162078206, 2614888103, 3248222580, 3835390401, 4022224774,
   264347078, 604807628, 770255983, 1249150122, 1555081692, 1996064986,
   2554220882, 2821834349, 2952996808, 3210313671, 3336571891, 3584528711,
   113926993, 338241895, 666307205, 773529912, 1294757372, 1396182291,
   1695183700, 1986661051, 2177026350, 2456956037, 2730485921, 2820302411,
   3259730800, 3345764771, 3516065817, 3600352804, 4094571909, 275423344,
   430227734, 506948616, 659060556, 883997877, 958139571, 1322822218,
   1537002063, 1747873779, 1955562222, 2024104815, 2227730452, 2361852424,
   2428436474, 2756734187, 3204031479, 3329325298]

/-- The eight SHA-256 initial hash values. -/
structure Hash8 where
  a : Nat
  b : Nat
  c : Nat
  d : Nat
  e : Nat
  f : Nat
  g : Nat
  h : Nat
  deriving DecidableEq, Repr

/-- SHA-256 initial state `H⁽⁰⁾`. -/
def sha256IV : Hash8 :=
  ⟨0x6a09e667, 0xbb67ae85, 0x3c6ef372, 0xa54ff53a,
   0x510e527f, 0x9b05688c, 0x1f83d9ab, 0x5be0cd19⟩

/-- Big-endian 32-bit word from four bytes, repeated over the list. -/
def bytesToWords : List Nat → List Nat
  | b0 :: b1 :: b2 :: b3 :: rest => (((b0 * 256 + b1) * 256 + b2) * 256 + b3) :: bytesToWords rest
  | _ => []

/-- Big-endian 4-byte serialization of a 32-bit word. -/
def be32 (x : Nat) : List Nat :=
  [x / 16777216 % 256, x / 65536 % 256, x / 256 % 256, x % 256]

/-- Big-endian 8-byte serialization of a 64-bit length field. -/
def be64 (x : Nat) : List Nat :=
  [x / 72057594037927936 % 256, x / 281474976710656 % 256,
   x / 1099511627776 % 256, x / 4294967296 % 256,
   x / 16777216 % 256, x / 65536 % 256, x / 256 % 256, x % 256]

/-- FIPS 180-4 §5.1.1 padding: append `0x80`, zero bytes to 56 mod 64,
then the bit length as a 64-bit big-endian integer. -/
def sha256Pad (msg : List Nat) : List Nat :=
  msg ++ 128 :: List.replicate ((56 + 64 - (msg.length + 1) % 64) % 64) 0
      ++ be64 (msg.length * 8)

/-- Partition a byte list into 64-byte blocks (fuel-structured so that the
kernel can evaluate it; `chunks64` supplies ample fuel). -/
def chunks64Go : Nat → List Nat → List (List Nat)
  | 0, _ => []
  | _, [] => []
  | fuel + 1, b :: rest => ((b :: rest).take 64) :: chunks64Go fuel ((b :: rest).drop 64)

/-- Partition a byte list into 64-byte blocks. -/
def chunks64 (l : List Nat) : List (List Nat) := chunks64Go l.length l

/-- Extend a 16-word message schedule by `n` further words
(FIPS 180-4 §6.2.2 step 1). -/
def extendSchedule : List Nat → Nat → List Nat
  | w, 0 => w
  | w, n + 1 =>
      let t := w.length
      extendSchedule
        (w ++ [(ssig1 (w.getD (t - 2) 0) + w.getD (t - 7) 0
                + ssig0 (w.getD (t - 15) 0) + w.getD (t - 16) 0) % M32]) n

/-- One SHA-256 round: `kw` is the pair of round constant and schedule
word (FIPS 180-4 §6.2.2 step 3). -/
def sha256Round (s : Hash8) (kw : Nat × Nat) : Hash8 :=
  let t1 := (s.h + bsig1 s.e + ch32 s.e s.f s.g + kw.1 + kw.2) % M32
  let t2 := (bsig0 s.a + maj32 s.a s.b s.c) % M32
  ⟨(t1 + t2) % M32, s.a, s.b, s.c, (s.d + t1) % M32, s.e, s.f, s.g⟩

/-- Compress one 64-byte block into the running state. -/
def compressBlock (st : Hash8) (block : List Nat) : Hash8 :=
  let w := extendSchedule (bytesToWords block) 48
  let r := (K256.zip w).foldl sha256Round st
  ⟨(st.a + r.a) % M32, (st.b + r.b) % M32, (st.c + r.c) % M32, (st.d + r.d) % M32,
   (st.e + r.e) % M32, (st.f + r.f) % M32, (st.g + r.g) % M32, (st.h + r.h) % M32⟩

/-- SHA-256 of a byte list, as a 32-byte digest. -/
def sha256 (msg : List Nat) : List Nat :=
  let fin := (chunks64 (sha256Pad msg)).foldl compressBlock sha256IV
  be32 fin.a ++ be32 fin.b ++ be32 fin.c ++ be32 fin.d
    ++ be32 fin.e ++ be32 fin.f ++ be32 fin.g ++ be32 fin.h

/-- HMAC-SHA-256 (FIPS 198-1) over byte lists: key hashed if longer than
the 64-byte block, zero-padded, then the nested inner/outer hashes with
the `0x36` / `0x5c` pads.  This is the function `hmac.new(secret, msg,
hashlib.sha256).digest()` computes. -/
def hmacSha256 (key msg : List Nat) : List Nat :=
  let k0 := if 64 < key.length then sha256 key else key
  let kp := k0 ++ List.replicate (64 - k0.length) 0
  sha256 ((kp.map (Nat.xor 92)) ++ sha256 ((kp.map (Nat.xor 54)) ++ msg))

/-! ## base64url (RFC 4648 §5) as used through Python's `base64` module

`security.py` defines `_urlsafe_b64encode(data) = base64.urlsafe_b64encode(data).rstrip(b"=")`
and `_urlsafe_b64decode(data) = base64.urlsafe_b64decode(data + "=" * (-len(data) % 4))`.
The decoder is CPython's lenient `binascii.a2b_base64`: characters outside
the alphabet are discarded, `'='` ends the data once a quad has at least
two characters and enough padding, and a leftover quad position of one
(or an unterminated quad) raises `binascii.Error` — a `ValueError`
subclass that `_decode_jwt` does *not* catch. -/

/-- The base64url alphabet: sextet value to code point. -/
def b64urlChar (n : Nat) : Nat :=
  if n < 26 then 65 + n
  else if n < 52 then 97 + (n - 26)
  else if n < 62 then 48 + (n - 52)
  else if n = 62 then 45
  else 95

/-- Sextet value of a code point under `urlsafe_b64decode`'s alphabet:
after Python's `-_` → `+/` translation both alphabets are accepted. -/
def b64val (c : Nat) : Option Nat :=
  if 65 ≤ c ∧ c ≤ 90 then some (c - 65)
  else if 97 ≤ c ∧ c ≤ 122 then some (26 + (c - 97))
  else if 48 ≤ c ∧ c ≤ 57 then some (52 + (c - 48))
  else if c = 43 ∨ c = 45 then some 62
  else if c = 47 ∨ c = 95 then some 63
  else none

/-- Padded base64url encoding of a byte list
(what `base64.urlsafe_b64encode` returns, with its `'='` padding). -/
def b64encodePadded : List Nat → List Nat
  | [] => []
  | [b1] => [b64urlChar (b1 / 4), b64urlChar (b1 % 4 * 16), 61, 61]
  | [b1, b2] => [b64urlChar (b1 / 4), b64urlChar (b1 % 4 * 16 + b2 / 16),
                 b64urlChar (b2 % 16 * 4), 61]
  | b1 :: b2 :: b3 :: rest =>
      b64urlChar (b1 / 4) :: b64urlChar (b1 % 4 * 16 + b2 / 16)
        :: b64urlChar (b2 % 16 * 4 + b3 / 64) :: b64urlChar (b3 % 64)
        :: b64encodePadded rest

/-- Remove trailing occurrences of `c` (Python `.rstrip`). -/
def rstripEq (c : Nat) (l : List Nat) : List Nat :=
  (l.reverse.dropWhile (fun x => x == c)).reverse

/-- `_urlsafe_b64encode`: base64url encoding with the `'='` padding
stripped, on code points (the Python code decodes the ASCII bytes to a
`str`; byte values and code points coincide). -/
def urlsafe_b64encode (data : List Nat) : List Nat :=
  rstripEq 61 (b64encodePadded data)

/-- CPython's lenient `binascii.a2b_base64` loop.  `quadPos` counts the
valid characters of the current quad, `acc` holds the pending bits,
`pads` counts `'='` characters seen; a byte is emitted as soon as eight
bits are available, exactly as in `Modules/binascii.c`. -/
def a2bBase64Go : List Nat → Nat → Nat → Nat → List Nat → Except PyErr (List Nat)
  | [], quadPos, _acc, _pads, out =>
      if quadPos = 0 then .ok out
      else .error (.valueError .binascii)
  | c :: rest, quadPos, acc, pads, out =>
      if c = 61 then
        if 2 ≤ quadPos ∧ 4 ≤ quadPos + (pads + 1) then .ok out
        else a2bBase64Go rest quadPos acc (pads + 1) out
      else
        match b64val c with
        | none => a2bBase64Go rest quadPos acc pads out
        | some v =>
          match quadPos with
          | 0 => a2bBase64Go rest 1 v pads out
          | 1 => a2bBase64Go rest 2 ((acc * 64 + v) % 16) pads (out ++ [(acc * 64 + v) / 16])
          | 2 => a2bBase64Go rest 3 ((acc * 64 + v) % 4) pads (out ++ [(acc * 64 + v) / 4])
          | _ => a2bBase64Go rest 0 0 pads (out ++ [acc * 64 + v])

/-- `_urlsafe_b64decode(data)`: append `'='` to a multiple of four and
decode.  `base64.b64decode` first ASCII-encodes a `str` argument, so a
non-ASCII input raises `UnicodeEncodeError` (also uncaught upstream). -/
def urlsafe_b64decode (data : List Nat) : Except PyErr (List Nat) :=
  if data.all (fun c => c < 128) then
    a2bBase64Go (data ++ List.replicate ((4 - data.length % 4) % 4) 61) 0 0 0 []
  else
    .error (.valueError .unicodeEncode)

/-! ## UTF-8 (RFC 3629), as Python's `str.encode("utf-8")` and strict decoding -/

/-- UTF-8 bytes of one code point (total; callers guard surrogates). -/
def utf8EncodeChar (c : Nat) : List Nat :=
  if c < 128 then [c]
  else if c < 2048 then [192 + c / 64, 128 + c % 64]
  else if c < 65536 then [224 + c / 4096, 128 + c / 64 % 64, 128 + c % 64]
  else [240 + c / 262144, 128 + c / 4096 % 64, 128 + c / 64 % 64, 128 + c % 64]

/-- Python `str.encode("utf-8")`: UTF-8 bytes of the code points, raising
`UnicodeEncodeError` on lone surrogates. -/
def pyEncodeUtf8 (s : List Nat) : Except PyErr (List Nat) :=
  if s.all (fun c => !(55296 ≤ c && c ≤ 57343)) then
    .ok (s.map utf8EncodeChar).flatten
  else
    .error (.valueError .unicodeEncode)

/-- A UTF-8 continuation byte. -/
def utf8Cont (b : Nat) : Bool := 128 ≤ b && b ≤ 191

mutual

/-- Strict UTF-8 decoding of a byte list to code points, following
CPython's `bytes.decode("utf-8")` (as `json.loads` applies to a `bytes`
argument): shortest-form only, surrogates rejected, failure is
`UnicodeDecodeError` — yet another uncaught `ValueError` subclass. -/
def utf8Decode : List Nat → Except PyErr (List Nat)
  | [] => .ok []
  | b :: rest =>
    if b < 128 then (utf8Decode rest).map (fun t => b :: t)
    else utf8DecodeMulti b rest

/-- The multi-byte-sequence arm of `utf8Decode`. -/
def utf8DecodeMulti (b : Nat) (rest : List Nat) : Except PyErr (List Nat) :=
    if 194 ≤ b && b ≤ 223 then
      match rest with
      | b2 :: rest2 =>
        if utf8Cont b2 then
          (utf8Decode rest2).map (fun t => ((b - 192) * 64 + (b2 - 128)) :: t)
        else .error (.valueError .unicodeDecode)
      | [] => .error (.valueError .unicodeDecode)
    else if 224 ≤ b && b ≤ 239 then
      match rest with
      | b2 :: b3 :: rest3 =>
        if (if b = 224 then 160 ≤ b2 && b2 ≤ 191
            else if b = 237 then 128 ≤ b2 && b2 ≤ 159
            else utf8Cont b2) && utf8Cont b3 then
          (utf8Decode rest3).map
            (fun t => ((b - 224) * 4096 + (b2 - 128) * 64 + (b3 - 128)) :: t)
        else .error (.valueError .unicodeDecode)
      | _ => .error (.valueError .unicodeDecode)
    else if 240 ≤ b && b ≤ 244 then
      match rest with
      | b2 :: b3 :: b4 :: rest4 =>
        if (if b = 240 then 144 ≤ b2 && b2 ≤ 191
            else if b = 244 then 128 ≤ b2 && b2 ≤ 143
            else utf8Cont b2) && utf8Cont b3 && utf8Cont b4 then
          (utf8Decode rest4).map
            (fun t => ((b - 240) * 262144 + (b2 - 128) * 4096
                        + (b3 - 128) * 64 + (b4 - 128)) :: t)
        else .error (.valueError .unicodeDecode)
      | _ => .error (.valueError .unicodeDecode)
    else .error (.valueError .unicodeDecode)

end

/-! ## JSON, as Python's `json` module uses it here

`_encode_jwt` serializes with `json.dumps(..., separators=(",", ":"))`
(compact, `ensure_ascii=True`, insertion order; `sort_keys=True` for the
header, whose keys `alg < typ` are sorted either way); `_decode_jwt`
parses with `json.loads` on the raw payload bytes.  JSON numbers are
modelled as integers — the code only ever mints integer timestamps, and
every claim quantifies over integer timestamps; fractional literals are
outside the model (the model parser rejects them, where Python would
build a `float`).  CPython's tolerance for *lone* surrogate escapes is
likewise outside the model (the model parser rejects them; they cannot
arise from serializing valid strings). -/

/-- A Python JSON value.  Object members keep their textual order;
`dictGet` below applies the `dict` overwrite semantics. -/
inductive PyJson where
  | null
  | bool (b : Bool)
  | num (n : Int)
  | str (s : List Nat)
  | arr (elems : List PyJson)
  | obj (members : List (List Nat × PyJson))
  deriving Repr

/-- Lowercase hex digit, as `json.dumps`'s `\uXXXX` escapes use. -/
def hexDigit (d : Nat) : Nat := if d < 10 then 48 + d else 97 + (d - 10)

/-- Four lowercase hex digits of a value below `0x10000`. -/
def hex4 (n : Nat) : List Nat :=
  [hexDigit (n / 4096 % 16), hexDigit (n / 256 % 16), hexDigit (n / 16 % 16), hexDigit (n % 16)]

/-- Hex digit value of a code point (the parser side accepts either case). -/
def hexVal (c : Nat) : Option Nat :=
  if 48 ≤ c ∧ c ≤ 57 then some (c - 48)
  else if 97 ≤ c ∧ c ≤ 102 then some (10 + (c - 97))
  else if 65 ≤ c ∧ c ≤ 70 then some (10 + (c - 65))
  else none

/-- `json.dumps` escaping of one character with `ensure_ascii=True`
(CPython's `py_encode_basestring_ascii`): the two-character escapes for
`"`, `\\` and the C0 controls `\b \t \n \f \r`, `\u00xx` for the other
controls, literal ASCII `0x20..0x7e`, `\uxxxx` beyond that, with a
UTF-16 surrogate pair for astral code points. -/
def escChar (c : Nat) : List Nat :=
  if c = 34 then [92, 34]
  else if c = 92 then [92, 92]
  else if c = 8 then [92, 98]
  else if c = 9 then [92, 116]
  else if c = 10 then [92, 110]
  else if c = 12 then [92, 102]
  else if c = 13 then [92, 114]
  else if c < 32 then 92 :: 117 :: hex4 c
  else if c < 127 then [c]
  else if c < 65536 then 92 :: 117 :: hex4 c
  else (92 :: 117 :: hex4 (55296 + (c - 65536) / 1024))
        ++ (92 :: 117 :: hex4 (56320 + (c - 65536) % 1024))

/-- `json.dumps` of a string: quote, escaped characters, quote. -/
def dumpsStr (s : List Nat) : List Nat := 34 :: (s.map escChar).flatten ++ [34]

/-- Decimal digits of a natural number (fuel-structured for kernel
evaluation; `natDecimal` supplies ample fuel). -/
def natDecimalGo : Nat → Nat → List Nat
  | 0, _ => []
  | fuel + 1, n => if n < 10 then [48 + n] else natDecimalGo fuel (n / 10) ++ [48 + n % 10]

/-- Decimal digits of a natural number. -/
def natDecimal (n : Nat) : List Nat := natDecimalGo (n + 1) n

/-- Python `repr` of an `int`, which is what `json.dumps` emits. -/
def intDecimal (n : Int) : List Nat :=
  if n < 0 then 45 :: natDecimal (-n).toNat else natDecimal n.toNat

mutual

/-- `json.dumps(value, separators=(",", ":"))` over code points. -/
def dumps : PyJson → List Nat
  | .null => [110, 117, 108, 108]        -- "null"
  | .bool true => [116, 114, 117, 101]   -- "true"
  | .bool false => [102, 97, 108, 115, 101]  -- "false"
  | .num n => intDecimal n
  | .str s => dumpsStr s
  | .arr es => 91 :: dumpsElems es ++ [93]
  | .obj ms => 123 :: dumpsMembers ms ++ [125]

/-- Comma-joined serializations of array elements. -/
def dumpsElems : List PyJson → List Nat
  | [] => []
  | [e] => dumps e
  | e :: e2 :: rest => dumps e ++ 44 :: dumpsElems (e2 :: rest)

/-- Comma-joined `key:value` serializations of object members. -/
def dumpsMembers : List (List Nat × PyJson) → List Nat
  | [] => []
  | [(k, v)] => dumpsStr k ++ 58 :: dumps v
  | (k, v) :: m2 :: rest => dumpsStr k ++ 58 :: dumps v ++ 44 :: dumpsMembers (m2 :: rest)

end

/-- JSON whitespace (space, tab, newline, carriage return). -/
def isJsonWs (c : Nat) : Bool := c == 32 || c == 9 || c == 10 || c == 13

/-- Skip JSON whitespace. -/
def skipWs (s : List Nat) : List Nat := s.dropWhile isJsonWs

/-- Four hex digits to their value. -/
def hexVal4 (h1 h2 h3 h4 : Nat) : Option Nat :=
  match hexVal h1, hexVal h2, hexVal h3, hexVal h4 with
  | some d1, some d2, some d3, some d4 => some (((d1 * 16 + d2) * 16 + d3) * 16 + d4)
  | _, _, _, _ => none

mutual

/-- Parse the body of a JSON string after the opening quote, returning
the decoded string and the input after the closing quote (CPython's
`scanstring`, strict mode: unescaped controls are rejected). -/
def parseJString : List Nat → Option (List Nat × List Nat)
  | [] => none
  | c :: rest =>
    if c = 34 then some ([], rest)
    else if c = 92 then parseJEscape rest
    else if c < 32 then none
    else (parseJString rest).map (fun p => (c :: p.1, p.2))

/-- An escape sequence, after the backslash. -/
def parseJEscape : List Nat → Option (List Nat × List Nat)
  | [] => none
  | e :: rest2 =>
    if e = 34 then (parseJString rest2).map (fun p => (34 :: p.1, p.2))
    else if e = 92 then (parseJString rest2).map (fun p => (92 :: p.1, p.2))
    else if e = 47 then (parseJString rest2).map (fun p => (47 :: p.1, p.2))
    else if e = 98 then (parseJString rest2).map (fun p => (8 :: p.1, p.2))
    else if e = 102 then (parseJString rest2).map (fun p => (12 :: p.1, p.2))
    else if e = 110 then (parseJString rest2).map (fun p => (10 :: p.1, p.2))
    else if e = 114 then (parseJString rest2).map (fun p => (13 :: p.1, p.2))
    else if e = 116 then (parseJString rest2).map (fun p => (9 :: p.1, p.2))
    else if e = 117 then parseJUnicode rest2
    else none

/-- A `\uXXXX` escape; an escaped UTF-16 high surrogate must pair with
a following low-surrogate escape and yields the combined code point, as
CPython's scanner does (a *lone* surrogate escape, which CPython keeps,
has no counterpart among valid code-point lists and is rejected). -/
def parseJUnicode : List Nat → Option (List Nat × List Nat)
  | h1 :: h2 :: h3 :: h4 :: rest3 =>
    (match hexVal4 h1 h2 h3 h4 with
     | none => none
     | some u =>
       if 55296 ≤ u ∧ u ≤ 56319 then parseJPair u rest3
       else if 56320 ≤ u ∧ u ≤ 57343 then none
       else (parseJString rest3).map (fun p => (u :: p.1, p.2)))
  | _ => none

/-- The low half of an escaped surrogate pair. -/
def parseJPair (u : Nat) : List Nat → Option (List Nat × List Nat)
  | 92 :: 117 :: g1 :: g2 :: g3 :: g4 :: rest4 =>
    (match hexVal4 g1 g2 g3 g4 with
     | none => none
     | some v =>
       if 56320 ≤ v ∧ v ≤ 57343 then
         (parseJString rest4).map
           (fun p => ((65536 + (u - 55296) * 1024 + (v - 56320)) :: p.1, p.2))
       else none)
  | _ => none

end

/-- Consume a run of decimal digits, extending the accumulator. -/
def digitsNat : List Nat → Nat → Nat × List Nat
  | c :: rest, acc =>
      if 48 ≤ c ∧ c ≤ 57 then digitsNat rest (acc * 10 + (c - 48)) else (acc, c :: rest)
  | [], acc => (acc, [])

/-- Parse an unsigned JSON integer (`0` or a nonzero-led digit run); a
following `.`/`e`/`E` means a fractional literal, outside the model. -/
def parseUIntTok : List Nat → Option (Nat × List Nat)
  | [] => none
  | c :: rest =>
      if c = 48 then
        match rest with
        | d :: _ => if d = 46 ∨ d = 101 ∨ d = 69 then none else some (0, rest)
        | [] => some (0, [])
      else if 49 ≤ c ∧ c ≤ 57 then
        let p := digitsNat rest (c - 48)
        match p.2 with
        | d :: _ => if d = 46 ∨ d = 101 ∨ d = 69 then none else some p
        | [] => some p
      else none

/-- Parse a JSON integer with optional leading minus. -/
def parseIntTok : List Nat → Option (Int × List Nat)
  | [] => none
  | c :: rest =>
      if c = 45 then (parseUIntTok rest).map (fun p => (-(p.1 : Int), p.2))
      else (parseUIntTok (c :: rest)).map (fun p => ((p.1 : Int), p.2))

mutual

/-- Parse one JSON value (leading whitespace allowed), returning the
value and the remaining input.  `fuel` only decreases into nested
values and member/element lists; `jsonLoadsStr` supplies more than any
input can consume. -/
def parseValue : Nat → List Nat → Option (PyJson × List Nat)
  | 0, _ => none
  | fuel + 1, s =>
    match skipWs s with
    | [] => none
    | c :: rest =>
      if c = 34 then (parseJString rest).map (fun p => (.str p.1, p.2))
      else if c = 123 then
        match skipWs rest with
        | 125 :: r2 => some (.obj [], r2)
        | r2 => (parseMembers fuel r2).map (fun p => (.obj p.1, p.2))
      else if c = 91 then
        match skipWs rest with
        | 93 :: r2 => some (.arr [], r2)
        | r2 => (parseElems fuel r2).map (fun p => (.arr p.1, p.2))
      else if c = 116 then
        match rest with
        | 114 :: 117 :: 101 :: r => some (.bool true, r)
        | _ => none
      else if c = 102 then
        match rest with
        | 97 :: 108 :: 115 :: 101 :: r => some (.bool false, r)
        | _ => none
      else if c = 110 then
        match rest with
        | 117 :: 108 :: 108 :: r => some (.null, r)
        | _ => none
      else if c = 45 ∨ (48 ≤ c ∧ c ≤ 57) then
        (parseIntTok (c :: rest)).map (fun p => (.num p.1, p.2))
      else none

/-- Parse the members of an object, positioned at a key's opening quote
(whitespace already skipped), through the closing `}`. -/
def parseMembers : Nat → List Nat → Option (List (List Nat × PyJson) × List Nat)
  | 0, _ => none
  | fuel + 1, s =>
    match s with
    | 34 :: rest =>
      (parseJString rest).bind (fun pk =>
        match skipWs pk.2 with
        | 58 :: r2 =>
          (parseValue fuel r2).bind (fun pv =>
            match skipWs pv.2 with
            | 44 :: r4 =>
              (parseMembers fuel (skipWs r4)).map (fun pm => ((pk.1, pv.1) :: pm.1, pm.2))
            | 125 :: r4 => some ([(pk.1, pv.1)], r4)
            | _ => none)
        | _ => none)
    | _ => none

/-- Parse the elements of a non-empty array through the closing `]`. -/
def parseElems : Nat → List Nat → Option (List PyJson × List Nat)
  | 0, _ => none
  | fuel + 1, s =>
    (parseValue fuel s).bind (fun pv =>
      match skipWs pv.2 with
      | 44 :: r2 => (parseElems fuel r2).map (fun pe => (pv.1 :: pe.1, pe.2))
      | 93 :: r2 => some ([pv.1], r2)
      | _ => none)

end

/-- `json.loads` on a `str`: parse one value, then require only
whitespace to follow ("Extra data" otherwise).  Failure is
`json.JSONDecodeError`. -/
def jsonLoadsStr (s : List Nat) : Except PyErr PyJson :=
  match parseValue (s.length + 1) s with
  | some (j, rest) => if skipWs rest = [] then .ok j else .error (.valueError .jsonDecode)
  | none => .error (.valueError .jsonDecode)

/-- `json.loads` on a `bytes` (as `_decode_jwt` calls it): decode UTF-8 —
whose failure is `UnicodeDecodeError`, *not* `JSONDecodeError` — then
parse. -/
def jsonLoadsBytes (b : List Nat) : Except PyErr PyJson :=
  (utf8Decode b).bind jsonLoadsStr

/-- Member lookup with Python `dict` semantics (`json.loads` builds a
`dict`, so a duplicated key keeps its last value). -/
def dictGet (ms : List (List Nat × PyJson)) (k : List Nat) : Option PyJson :=
  (ms.reverse.find? (fun m => m.1 == k)).map (fun m => m.2)

/-! ## Settings (`config.py`) -/

/-- The fields of `Settings` that the token core reads.  Path options:
`None` models Python `None`; `some []` models an empty string (both are
falsy where the code tests them). -/
structure Settings where
  jwt_secret : List Nat := pystr "change-me"
  jwt_algorithm : List Nat := pystr "HS256"
  jwt_exp_minutes : Int := 60
  jwt_refresh_exp_days : Int := 30
  jwt_rsa_private_key_path : Option (List Nat) := none
  jwt_rsa_public_key_path : Option (List Nat) := none

/-- Outcome of constructing `Settings`: `Settings.__init__` calls
`sys.exit(1)` when the JWT secret is the default, empty, or shorter than
32 characters; nothing else is validated at startup. -/
inductive StartupResult
  | exited
  | started (s : Settings)

/-- `Settings.__init__` (`config.py:52-64`): the only
startup/config-validation the process performs. -/
def settingsInit (s : Settings) : StartupResult :=
  if s.jwt_secret = pystr "change-me" ∨ s.jwt_secret = [] ∨ s.jwt_secret.length < 32 then
    .exited
  else
    .started s

/-! ## Key material (`_get_secret_and_algorithm`)

RSA primitives come from the `cryptography` library; the model keeps
them abstract: a private key is its signing function, a public key its
verification predicate (`False` models the `InvalidSignature` raise),
and PEM loading is a partial function supplied by the context. -/

/-- An RSA private key: PKCS#1 v1.5 / SHA-256 signing over message bytes. -/
structure RSAPrivateKey where
  sign : List Nat → List Nat

/-- An RSA public key: verification of (signature bytes, message bytes);
`false` models the library raising `InvalidSignature`. -/
structure RSAPublicKey where
  verify : List Nat → List Nat → Bool

/-- The `cryptography` backend: PEM parsing, `none` modelling a parse
failure (any raise inside the `try` block). -/
structure CryptoBackend where
  load_pem_private_key : List Nat → Option RSAPrivateKey
  load_pem_public_key : List Nat → Option RSAPublicKey

/-- The filesystem: path → file bytes; `none` models `open` raising
(missing or unreadable file). -/
def FS : Type := List Nat → Option (List Nat)

/-- What `_get_secret_and_algorithm` returns. -/
structure KeyMaterial where
  secret : List Nat
  algorithm : List Nat
  private_key : Option RSAPrivateKey
  public_key : Option RSAPublicKey

/-- Python truthiness of an optional string (`None` and `""` are falsy). -/
def truthyOpt : Option (List Nat) → Bool
  | some s => !s.isEmpty
  | none => false

/-- `_get_secret_and_algorithm` (`security.py:24-42`).  The second
component is the list of key-file paths opened during *this* call: the
function has no cache of its own (only `get_settings` is `lru_cache`d),
so in RS256 mode the `open`/PEM-load work recurs on every invocation,
and its failures are raised as `TokenError`s to whoever called. -/
def get_secret_and_algorithm (lib : CryptoBackend) (fs : FS) (settings : Settings) :
    Except PyErr KeyMaterial × List (List Nat) :=
  if settings.jwt_algorithm = pystr "RS256" then
    if truthyOpt settings.jwt_rsa_private_key_path
        && truthyOpt settings.jwt_rsa_public_key_path then
      match settings.jwt_rsa_private_key_path, settings.jwt_rsa_public_key_path with
      | some priv, some pub =>
        (match fs priv with
         | none => (.error (.tokenError .keyLoadFailed), [priv])
         | some privBytes =>
           match lib.load_pem_private_key privBytes with
           | none => (.error (.tokenError .keyLoadFailed), [priv])
           | some sk =>
             match fs pub with
             | none => (.error (.tokenError .keyLoadFailed), [priv, pub])
             | some pubBytes =>
               match lib.load_pem_public_key pubBytes with
               | none => (.error (.tokenError .keyLoadFailed), [priv, pub])
               | some pk =>
                 (.ok ⟨settings.jwt_secret, settings.jwt_algorithm, some sk, some pk⟩,
                  [priv, pub]))
      | _, _ => (.error (.tokenError .rs256RequiresKeyPaths), [])
    else
      (.error (.tokenError .rs256RequiresKeyPaths), [])
  else
    (.ok ⟨settings.jwt_secret, settings.jwt_algorithm, none, none⟩, [])

/-! ## The JWT codec (`_hmac_sha256`, `_encode_jwt`, `_decode_jwt`) -/

/-- `_hmac_sha256(secret, message)`: UTF-8 encode both `str`s (surrogates
raise `UnicodeEncodeError`) and take the HMAC-SHA256 digest. -/
def hmac_sha256_str (secret message : List Nat) : Except PyErr (List Nat) :=
  (pyEncodeUtf8 secret).bind (fun k => (pyEncodeUtf8 message).map (fun m => hmacSha256 k m))

/-- `hmac.compare_digest` on two `str` operands: constant-time equality,
but CPython raises `TypeError` if either operand has a non-ASCII
character ("comparing strings with non-ASCII characters is not
supported").  The timing property itself is not observable in the
model. -/
def compare_digest (a b : List Nat) : Except PyErr Bool :=
  if a.all (fun c => c < 128) && b.all (fun c => c < 128) then .ok (a == b)
  else .error .typeError

/-- The header dict `{"alg": alg, "typ": "JWT"}`; `json.dumps(...,
sort_keys=True)` orders the keys `alg < typ`, i.e. as listed. -/
def headerJson (alg : String) : PyJson :=
  .obj [(pystr "alg", .str (pystr alg)), (pystr "typ", .str (pystr "JWT"))]

/-- `_encode_jwt(payload, secret, algorithm, private_key=None)`
(`security.py:59-87`): serialize header and payload, base64url both,
sign `header.payload` with the selected algorithm, and join the three
segments with dots.  Code point 46 is `'.'`. -/
def encode_jwt (payload : PyJson) (secret algorithm : List Nat)
    (private_key : Option RSAPrivateKey) : Except PyErr (List Nat) :=
  if algorithm = pystr "HS256" then
    (pyEncodeUtf8 (dumps (headerJson "HS256"))).bind (fun hb =>
    (pyEncodeUtf8 (dumps payload)).bind (fun pb =>
    let signing_input := urlsafe_b64encode hb ++ 46 :: urlsafe_b64encode pb
    (hmac_sha256_str secret signing_input).map (fun digest =>
      signing_input ++ 46 :: urlsafe_b64encode digest)))
  else if algorithm = pystr "RS256" then
    match private_key with
    | none => .error (.tokenError .rs256RequiresPrivateKey)
    | some sk =>
      (pyEncodeUtf8 (dumps (headerJson "RS256"))).bind (fun hb =>
      (pyEncodeUtf8 (dumps payload)).bind (fun pb =>
      let signing_input := urlsafe_b64encode hb ++ 46 :: urlsafe_b64encode pb
      (pyEncodeUtf8 signing_input).map (fun sbytes =>
        signing_input ++ 46 :: urlsafe_b64encode (sk.sign sbytes))))
  else
    .error (.tokenError .unsupportedAlgorithm)

/-- Python `str.split(".")`: split on every dot, keeping empty parts. -/
def splitOnDot : List Nat → List (List Nat)
  | [] => [[]]
  | c :: rest =>
    if c = 46 then [] :: splitOnDot rest
    else
      match splitOnDot rest with
      | seg :: segs => (c :: seg) :: segs
      | [] => [[c]]

/-- Python `float(x)` applied to a JSON-decoded `exp` value: numbers
convert (the model's numbers are integers), `bool` is an `int` subclass
(`float(True) = 1.0`), a `str` converts when it spells a number (the
model covers integer spellings; other convertible spellings are outside
the model and share the `ValueError` arm with the non-convertible ones),
and list/dict raise `TypeError`.  `None` never reaches `float` — the
code guards `exp is not None` first. -/
def pyFloat : PyJson → Except PyErr ℚ
  | .num n => .ok (n : ℚ)
  | .bool b => .ok (if b then 1 else 0)
  | .str s =>
    (match parseIntTok s with
     | some (n, []) => .ok ((n : ℚ))
     | _ => .error (.valueError .plain))
  | .null => .error .typeError
  | .arr _ => .error .typeError
  | .obj _ => .error .typeError

/-- The payload half of `_decode_jwt` (`security.py:118-128`), entered
only after the signature check: base64url-decode and JSON-parse the
payload segment — `except json.JSONDecodeError` turns *only* that error
into `TokenError("Token payload invalid")`, while base64 and UTF-8
failures escape — then read `exp` (a JSON `null` is Python `None` and
passes the `exp is not None` guard as absent) and fail with
`TokenError("Token expired")` exactly when `now > float(exp)`.
A non-dict payload raises `AttributeError` at `payload_data.get`. -/
def decodePayloadPhase (payload_segment : List Nat) (now : ℚ) : Except PyErr PyJson :=
  match (urlsafe_b64decode payload_segment).bind jsonLoadsBytes with
  | .error e =>
    if e.isJSONDecodeError then .error (.tokenError .payloadInvalid) else .error e
  | .ok payload_data =>
    match payload_data with
    | .obj ms =>
      (match dictGet ms (pystr "exp") with
       | none => .ok (.obj ms)
       | some .null => .ok (.obj ms)
       | some expv =>
         (pyFloat expv).bind (fun x =>
           if now > x then .error (.tokenError .expired) else .ok (.obj ms)))
    | _ => .error .attributeError

/-- `_decode_jwt(token, secret, algorithm, public_key=None)`
(`security.py:90-128`): split into exactly three dot-separated segments
(`ValueError` from unpacking is caught as `TokenError("Token structure
invalid")`), verify the signature of `header.payload` under the
*configured* algorithm — the header's own contents are never parsed —
then run the payload phase.  In HS256 mode the comparison is
`hmac.compare_digest` on the base64url-encoded recomputed digest; in
RS256 mode any exception of the `try` block (base64 errors included) is
caught as `TokenError("Token signature invalid")`. -/
def decode_jwt (token secret algorithm : List Nat)
    (public_key : Option RSAPublicKey) (now : ℚ) : Except PyErr PyJson :=
  match splitOnDot token with
  | [header_segment, payload_segment, signature_segment] =>
    let signing_input := header_segment ++ 46 :: payload_segment
    if algorithm = pystr "HS256" then
      (hmac_sha256_str secret signing_input).bind (fun digest =>
      (compare_digest (urlsafe_b64encode digest) signature_segment).bind (fun same =>
      if same then decodePayloadPhase payload_segment now
      else .error (.tokenError .signatureInvalid)))
    else if algorithm = pystr "RS256" then
      match public_key with
      | none => .error (.tokenError .rs256RequiresPublicKey)
      | some pk =>
        (match (urlsafe_b64decode signature_segment).bind (fun sig =>
                 (pyEncodeUtf8 signing_input).map (fun m => pk.verify sig m)) with
         | .ok true => decodePayloadPhase payload_segment now
         | _ => .error (.tokenError .signatureInvalid))
    else
      .error (.tokenError .unsupportedAlgorithm)
  | _ => .error (.tokenError .structureInvalid)

/-! ## Token creation and decoding (`create_access_token`,
`create_refresh_token`, `decode_token`)

Time is a rational number of seconds since the epoch (`datetime
.timestamp()`; the float rounding of CPython's microsecond-resolution
clock is not modelled).  Randomness-free, so each function takes `now`
explicitly; the `lru_cache`d `get_settings()` is the `settings`
argument, the same value on every call of a process. -/

/-- Python `int(x)` on a real number: truncation toward zero. -/
def pyIntTrunc (q : ℚ) : Int := if 0 ≤ q then ⌊q⌋ else -⌊-q⌋

/-- The payload dict literal common to both minting functions
(insertion order `sub, role, type, iat, exp`). -/
def tokenPayload (subject role : List Nat) (typ : String) (now expire : ℚ) : PyJson :=
  .obj [(pystr "sub", .str subject), (pystr "role", .str role),
        (pystr "type", .str (pystr typ)),
        (pystr "iat", .num (pyIntTrunc now)), (pystr "exp", .num (pyIntTrunc expire))]

/-- `create_access_token(subject, role)` (`security.py:131-145`):
`expire = now + timedelta(minutes=settings.jwt_exp_minutes)`, then encode
the `type: "access"` payload.  Alongside the result, the key-file reads
this call performed. -/
def create_access_token (lib : CryptoBackend) (fs : FS) (settings : Settings)
    (now : ℚ) (subject role : List Nat) : Except PyErr (List Nat) × List (List Nat) :=
  let mr := get_secret_and_algorithm lib fs settings
  (mr.1.bind (fun m =>
    encode_jwt (tokenPayload subject role "access" now
        (now + 60 * (settings.jwt_exp_minutes : ℚ)))
      m.secret m.algorithm m.private_key),
   mr.2)

/-- `create_refresh_token(subject, role)` (`security.py:148-162`):
`expire = now + timedelta(days=settings.jwt_refresh_exp_days)`. -/
def create_refresh_token (lib : CryptoBackend) (fs : FS) (settings : Settings)
    (now : ℚ) (subject role : List Nat) : Except PyErr (List Nat) × List (List Nat) :=
  let mr := get_secret_and_algorithm lib fs settings
  (mr.1.bind (fun m =>
    encode_jwt (tokenPayload subject role "refresh" now
        (now + 86400 * (settings.jwt_refresh_exp_days : ℚ)))
      m.secret m.algorithm m.private_key),
   mr.2)

/-- `decode_token(token)` (`security.py:165-168`): fetch the key material
(again — every call re-runs `_get_secret_and_algorithm`) and run
`_decode_jwt`. -/
def decode_token (lib : CryptoBackend) (fs : FS) (settings : Settings)
    (now : ℚ) (token : List Nat) : Except PyErr PyJson × List (List Nat) :=
  let mr := get_secret_and_algorithm lib fs settings
  (mr.1.bind (fun m => decode_jwt token m.secret m.algorithm m.public_key now),
   mr.2)

/-! ## Password hashing (`get_password_hash`, `verify_password`)

The bcrypt library's EKS-Blowfish core is an abstract parameter
(`BcryptCore.digest`); the structure around it — NUL rejection, the
`$2?$NN$` + 22-character salt header parse, 72-byte truncation, and
`checkpw` re-hashing with the stored string as the salt — follows
pyca/bcrypt. -/

/-- The abstract bcrypt digest: version character, cost, the 22 salt
characters and the (≤ 72 byte) password determine the 31-character
digest text. -/
structure BcryptCore where
  digest : Nat → Nat → List Nat → List Nat → List Nat

/-- A bcrypt salt/hash header `$2v$NN$` followed by 22 salt characters
in bcrypt's `./A-Za-z0-9` alphabet; the parse ignores anything after
them (a full hash's digest part, in the `checkpw` path). -/
def parseBcryptSalt (s : List Nat) : Option (Nat × Nat × List Nat) :=
  match s with
  | 36 :: 50 :: v :: 36 :: c1 :: c2 :: 36 :: rest =>
    if (v = 97 ∨ v = 98 ∨ v = 120 ∨ v = 121)
        ∧ (48 ≤ c1 ∧ c1 ≤ 57) ∧ (48 ≤ c2 ∧ c2 ≤ 57)
        ∧ 22 ≤ rest.length
        ∧ (rest.take 22).all (fun c =>
            c = 46 ∨ c = 47 ∨ (48 ≤ c ∧ c ≤ 57) ∨ (65 ≤ c ∧ c ≤ 90) ∨ (97 ≤ c ∧ c ≤ 122)) then
      some (v, (c1 - 48) * 10 + (c2 - 48), rest.take 22)
    else none
  | _ => none

/-- Rebuild the `$2v$NN$salt` header from parsed fields. -/
def bcryptHeader (v cost : Nat) (salt22 : List Nat) : List Nat :=
  36 :: 50 :: v :: 36 :: (48 + cost / 10 % 10) :: (48 + cost % 10) :: 36 :: salt22

/-- `bcrypt.hashpw(password, salt)`: reject NUL bytes
(`ValueError("password may not contain NUL bytes")`), parse the salt
header (`ValueError("Invalid salt")` on failure), and emit the header
followed by the digest of the password truncated to 72 bytes. -/
def hashpw (core : BcryptCore) (password salt : List Nat) : Except PyErr (List Nat) :=
  if password.contains 0 then .error (.valueError .plain)
  else
    match parseBcryptSalt salt with
    | none => .error (.valueError .plain)
    | some (v, cost, salt22) =>
      .ok (bcryptHeader v cost salt22 ++ core.digest v cost salt22 (password.take 72))

/-- `bcrypt.checkpw(password, hashed_password)`: NUL checks on both
arguments, re-hash with the stored string as the salt, and compare
(`hmac.compare_digest` on bytes — no TypeError path). -/
def checkpw (core : BcryptCore) (password hashed_password : List Nat) : Except PyErr Bool :=
  if password.contains 0 || hashed_password.contains 0 then .error (.valueError .plain)
  else (hashpw core password hashed_password).map (fun ret => ret == hashed_password)

/-- `get_password_hash(password)` (`security.py:171-174`).  `salt` is the
value `bcrypt.gensalt()` returned — randomness enters the model as this
argument.  The final `.decode("utf-8")` of the ASCII hash is the
identity on code points. -/
def get_password_hash (core : BcryptCore) (salt : List Nat) (password : List Nat) :
    Except PyErr (List Nat) :=
  (pyEncodeUtf8 password).bind (fun pb => hashpw core pb salt)

/-- `verify_password(password, hashed_password)` (`security.py:177-181`):
`bcrypt.checkpw` on the UTF-8 encodings, with `except ValueError:
return False`.  `UnicodeEncodeError` is a `ValueError` subclass, so even
unencodable inputs return `False`. -/
def verify_password (core : BcryptCore) (password hashed_password : List Nat) :
    Except PyErr Bool :=
  match (pyEncodeUtf8 password).bind (fun pb =>
        (pyEncodeUtf8 hashed_password).bind (fun hb => checkpw core pb hb)) with
  | .ok b => .ok b
  | .error e => if e.isValueError then .ok false else .error e

/-! ## The token-consuming caller (`dependencies.py`) -/

/-- Python truthiness of a JSON-decoded value. -/
def pyTruthy : PyJson → Bool
  | .null => false
  | .bool b => b
  | .num n => n != 0
  | .str s => !s.isEmpty
  | .arr es => !es.isEmpty
  | .obj ms => !ms.isEmpty

/-- The token-handling prefix of `get_current_user`
(`dependencies.py:38-52`): decode the token (re-raising `TokenError`),
then require a truthy `sub` claim (`HTTPException(401, "Token missing
subject")` otherwise) — and nothing else: the payload's `type` is never
consulted.  The returned value is the `user_id` handed to
`_fetch_user`; the database lookup is outside the model. -/
def get_current_user_auth (lib : CryptoBackend) (fs : FS) (settings : Settings)
    (now : ℚ) (token : List Nat) : Except PyErr PyJson × List (List Nat) :=
  let dr := decode_token lib fs settings now token
  (dr.1.bind (fun payload =>
    match payload with
    | .obj ms =>
      (match dictGet ms (pystr "sub") with
       | some v => if pyTruthy v then .ok v else .error .httpUnauthorized
       | none => .error .httpUnauthorized)
    | _ => .error .attributeError),
   dr.2)

/-! ## Concrete instances for the closed theorems, and shared predicates -/

/-- A backend whose PEM loaders always fail (never consulted in HS256
runs). -/
def emptyBackend : CryptoBackend := ⟨fun _ => none, fun _ => none⟩

/-- A filesystem with no readable files. -/
def emptyFS : FS := fun _ => none

/-- A backend whose PEM loaders succeed (echo signer, always-true
verifier) — used to observe the RS256 read behaviour. -/
def sampleBackend : CryptoBackend :=
  ⟨fun _ => some ⟨fun m => m⟩, fun _ => some ⟨fun _ _ => true⟩⟩

/-- A filesystem on which every path reads as an empty file. -/
def sampleFS : FS := fun _ => some []

/-- A 32-character secret that passes the startup validation. -/
def testSecret : List Nat := pystr "0123456789abcdef0123456789abcdef"

/-- Default settings (HS256) with a valid secret. -/
def hs256Settings : Settings := { jwt_secret := testSecret }

/-- Settings with `jwt_exp_minutes = 0` (nothing in `config.py` forbids
it — the field is env-configurable with no validator). -/
def zeroMinuteSettings : Settings := { jwt_secret := testSecret, jwt_exp_minutes := 0 }

/-- RS256 selected but no key paths configured. -/
def rs256NoPathSettings : Settings :=
  { jwt_secret := testSecret, jwt_algorithm := pystr "RS256" }

/-- RS256 with both key paths configured. -/
def rs256PathSettings : Settings :=
  { jwt_secret := testSecret, jwt_algorithm := pystr "RS256",
    jwt_rsa_private_key_path := some (pystr "keys/jwtRS256.key"),
    jwt_rsa_public_key_path := some (pystr "keys/jwtRS256.key.pub") }

/-- A token `a.a.sig` whose signature over `a.a` is genuinely valid under
`testSecret`, but whose payload segment `"a"` cannot be base64-decoded
(one data character is one more than a multiple of four). -/
def c4Token : List Nat :=
  pystr "a.a." ++ urlsafe_b64encode (hmacSha256 testSecret (pystr "a.a"))

/-- A decode outcome within the advertised interface: a payload, or an
authentication failure (`TokenError`).  Anything else is an exception
escaping the taxonomy. -/
def InTaxonomy (r : Except PyErr PyJson) : Prop :=
  (∃ j, r = .ok j) ∨ (∃ d, r = .error (.tokenError d))

/-- All code points are ASCII. -/
def AsciiStr (s : List Nat) : Prop := ∀ c ∈ s, c < 128

/-- No `'.'` (code point 46) occurs: the string is a single JWT segment. -/
def NoDot (s : List Nat) : Prop := 46 ∉ s

/-- A concrete stand-in for the abstract bcrypt core (its digests are
NUL-free, like real bcrypt's radix-64 text). -/
def sampleBcrypt : BcryptCore :=
  ⟨fun _ _ salt22 pw => (salt22 ++ pw ++ List.replicate 31 65).take 31⟩

/-- A well-formed bcrypt salt as `bcrypt.gensalt()` returns. -/
def sampleSalt : List Nat := pystr "$2b$12$abcdefghijklmnopqrstuv"

/-- A bcrypt core with a constant radix-64-style digest — real bcrypt
digests are likewise 31 NUL-free ASCII characters. -/
def constBcrypt : BcryptCore := ⟨fun _ _ _ _ => List.replicate 31 65⟩

/-- The input after a serialized number may not continue the numeric
literal: no digit, no `.`/`e`/`E`.  The serializer's separators (`,`,
`}`, `]`) and the end of input all qualify. -/
def NumBoundary (rest : List Nat) : Prop :=
  ∀ r0, rest.head? = some r0 → ¬(48 ≤ r0 ∧ r0 ≤ 57) ∧ r0 ≠ 46 ∧ r0 ≠ 101 ∧ r0 ≠ 69

/-- A flat JSON leaf as the token payloads use: a valid string or an
integer. -/
def FlatVal : PyJson → Prop :=
  fun v => (∃ s, v = .str s ∧ ValidStr s) ∨ (∃ n, v = .num n)

/-! # Theorems

## base64url round trip -/

/-- Alphabet inversion: decoding a base64url character recovers its
sextet. -/
theorem b64val_b64urlChar : ∀ v < 64, b64val (b64urlChar v) = some v := by decide

/-- A base64url character is never `'='`, never `'.'`, and is ASCII. -/
theorem b64urlChar_props : ∀ v < 64, b64urlChar v ≠ 61 ∧ b64urlChar v ≠ 46 ∧ b64urlChar v < 128 := by
  decide

/-- Processing one full quad of encoded characters emits the three
source bytes and returns to quad position zero. -/
theorem a2bBase64Go_quad (b1 b2 b3 : Nat) (h1 : b1 < 256) (h2 : b2 < 256) (h3 : b3 < 256)
    (rest : List Nat) (pads : Nat) (out : List Nat) :
    a2bBase64Go (b64urlChar (b1 / 4) :: b64urlChar (b1 % 4 * 16 + b2 / 16)
        :: b64urlChar (b2 % 16 * 4 + b3 / 64) :: b64urlChar (b3 % 64) :: rest) 0 0 pads out
      = a2bBase64Go rest 0 0 pads (out ++ [b1, b2, b3]) := by
  have e0 := b64val_b64urlChar (b1 / 4) (by omega)
  have e1 := b64val_b64urlChar (b1 % 4 * 16 + b2 / 16) (by omega)
  have e2 := b64val_b64urlChar (b2 % 16 * 4 + b3 / 64) (by omega)
  have e3 := b64val_b64urlChar (b3 % 64) (by omega)
  have n0 := (b64urlChar_props (b1 / 4) (by omega)).1
  have n1 := (b64urlChar_props (b1 % 4 * 16 + b2 / 16) (by omega)).1
  have n2 := (b64urlChar_props (b2 % 16 * 4 + b3 / 64) (by omega)).1
  have n3 := (b64urlChar_props (b3 % 64) (by omega)).1
  simp only [a2bBase64Go, n0, n1, n2, n3, if_neg, e0, e1, e2, e3, if_false]
  have g1 : (b1 / 4 * 64 + (b1 % 4 * 16 + b2 / 16)) / 16 = b1 := by omega
  have g2 : ((b1 / 4 * 64 + (b1 % 4 * 16 + b2 / 16)) % 16 * 64 + (b2 % 16 * 4 + b3 / 64)) / 4 = b2 := by
    omega
  have g3 : ((b1 / 4 * 64 + (b1 % 4 * 16 + b2 / 16)) % 16 * 64 + (b2 % 16 * 4 + b3 / 64)) % 4 * 64
      + b3 % 64 = b3 := by omega
  rw [g1, g2, g3]
  simp [List.append_assoc]

/-- Decoding the padded encoding of a byte list appends exactly those
bytes to the output accumulator. -/
theorem a2bBase64Go_encode : ∀ (bs : List Nat), (∀ b ∈ bs, b < 256) → ∀ out : List Nat,
    a2bBase64Go (b64encodePadded bs) 0 0 0 out = .ok (out ++ bs)
  | [], _, out => by simp [b64encodePadded, a2bBase64Go]
  | [b1], h, out => by
    have hb : b1 < 256 := h b1 (by simp)
    have e0 := b64val_b64urlChar (b1 / 4) (by omega)
    have e1 := b64val_b64urlChar (b1 % 4 * 16) (by omega)
    have n0 := (b64urlChar_props (b1 / 4) (by omega)).1
    have n1 := (b64urlChar_props (b1 % 4 * 16) (by omega)).1
    have g1 : (b1 / 4 * 64 + b1 % 4 * 16) / 16 = b1 := by omega
    simp [b64encodePadded, a2bBase64Go, n0, n1, e0, e1, g1]
  | [b1, b2], h, out => by
    have hb1 : b1 < 256 := h b1 (by simp)
    have hb2 : b2 < 256 := h b2 (by simp)
    have e0 := b64val_b64urlChar (b1 / 4) (by omega)
    have e1 := b64val_b64urlChar (b1 % 4 * 16 + b2 / 16) (by omega)
    have e2 := b64val_b64urlChar (b2 % 16 * 4) (by omega)
    have n0 := (b64urlChar_props (b1 / 4) (by omega)).1
    have n1 := (b64urlChar_props (b1 % 4 * 16 + b2 / 16) (by omega)).1
    have n2 := (b64urlChar_props (b2 % 16 * 4) (by omega)).1
    have g1 : (b1 / 4 * 64 + (b1 % 4 * 16 + b2 / 16)) / 16 = b1 := by omega
    have g2 : ((b1 / 4 * 64 + (b1 % 4 * 16 + b2 / 16)) % 16 * 64 + b2 % 16 * 4) / 4 = b2 := by
      omega
    simp [b64encodePadded, a2bBase64Go, n0, n1, n2, e0, e1, e2, g1, g2]
  | b1 :: b2 :: b3 :: rest, h, out => by
    have hb1 : b1 < 256 := h b1 (by simp)
    have hb2 : b2 < 256 := h b2 (by simp)
    have hb3 : b3 < 256 := h b3 (by simp)
    show a2bBase64Go (b64encodePadded (b1 :: b2 :: b3 :: rest)) 0 0 0 out = _
    rw [b64encodePadded]
    rw [a2bBase64Go_quad b1 b2 b3 hb1 hb2 hb3]
    rw [a2bBase64Go_encode rest (fun b hb => h b (by simp [hb])) (out ++ [b1, b2, b3])]
    simp

/-- `dropWhile` over an append, when it stops inside the first part. -/
theorem dropWhile_append_of_ne_nil (p : Nat → Bool) :
    ∀ (x : List Nat) (y : List Nat), x.dropWhile p ≠ [] →
      (x ++ y).dropWhile p = x.dropWhile p ++ y
  | [], _, hx => absurd rfl hx
  | c :: x', y, hx => by
    by_cases hc : p c
    · have hx' : x'.dropWhile p ≠ [] := by
        simpa [List.dropWhile_cons, hc] using hx
      simp [List.dropWhile_cons, hc, dropWhile_append_of_ne_nil p x' y hx']
    · simp [List.dropWhile_cons, hc]

/-- Stripping is the identity on a list with no trailing-candidate
characters at all. -/
theorem rstripEq_of_all_ne (a : List Nat) (ha : ∀ x ∈ a, x ≠ 61) : rstripEq 61 a = a := by
  unfold rstripEq
  cases hrev : a.reverse with
  | nil => simp [hrev, List.reverse_eq_nil_iff.mp hrev]
  | cons c t =>
    have hc : c ∈ a := by
      have : c ∈ a.reverse := by rw [hrev]; simp
      simpa using this
    have : (c == 61) = false := by simp [ha c hc]
    rw [List.dropWhile_cons, this]
    simp [← hrev]

/-- A list stripping to nothing is all `'='`. -/
theorem rstripEq_eq_nil (l : List Nat) (h : rstripEq 61 l = []) : ∀ x ∈ l, x = 61 := by
  intro x hx
  unfold rstripEq at h
  have h' : l.reverse.dropWhile (fun c => c == 61) = [] := by
    have := congrArg List.reverse h
    simpa using this
  have := List.dropWhile_eq_nil_iff.mp h' x (by simpa using hx)
  simpa using this

/-- Stripping an append whose right part does not strip away. -/
theorem rstripEq_append_right (a b : List Nat) (hb : rstripEq 61 b ≠ []) :
    rstripEq 61 (a ++ b) = a ++ rstripEq 61 b := by
  unfold rstripEq at hb ⊢
  have hb' : b.reverse.dropWhile (fun c => c == 61) ≠ [] := by
    intro hnil
    exact hb (by simp [hnil])
  rw [List.reverse_append, dropWhile_append_of_ne_nil _ _ _ hb']
  simp

/-- Every character of the padded encoding is `'='` or a base64url
alphabet character. -/
theorem b64encodePadded_mem : ∀ (bs : List Nat), (∀ b ∈ bs, b < 256) →
    ∀ c ∈ b64encodePadded bs, c = 61 ∨ ∃ v, v < 64 ∧ c = b64urlChar v
  | [], _, c, hc => by simp [b64encodePadded] at hc
  | [b1], h, c, hc => by
    have hb : b1 < 256 := h b1 (by simp)
    simp only [b64encodePadded, List.mem_cons, List.not_mem_nil, or_false] at hc
    rcases hc with rfl | rfl | rfl | rfl
    · exact .inr ⟨b1 / 4, by omega, rfl⟩
    · exact .inr ⟨b1 % 4 * 16, by omega, rfl⟩
    · exact .inl rfl
    · exact .inl rfl
  | [b1, b2], h, c, hc => by
    have hb1 : b1 < 256 := h b1 (by simp)
    have hb2 : b2 < 256 := h b2 (by simp)
    simp only [b64encodePadded, List.mem_cons, List.not_mem_nil, or_false] at hc
    rcases hc with rfl | rfl | rfl | rfl
    · exact .inr ⟨b1 / 4, by omega, rfl⟩
    · exact .inr ⟨b1 % 4 * 16 + b2 / 16, by omega, rfl⟩
    · exact .inr ⟨b2 % 16 * 4, by omega, rfl⟩
    · exact .inl rfl
  | b1 :: b2 :: b3 :: rest, h, c, hc => by
    have hb1 : b1 < 256 := h b1 (by simp)
    have hb2 : b2 < 256 := h b2 (by simp)
    have hb3 : b3 < 256 := h b3 (by simp)
    rw [b64encodePadded] at hc
    simp only [List.mem_cons, List.not_mem_nil, or_false] at hc
    rcases hc with rfl | rfl | rfl | rfl | hc
    · exact .inr ⟨b1 / 4, by omega, rfl⟩
    · exact .inr ⟨b1 % 4 * 16 + b2 / 16, by omega, rfl⟩
    · exact .inr ⟨b2 % 16 * 4 + b3 / 64, by omega, rfl⟩
    · exact .inr ⟨b3 % 64, by omega, rfl⟩
    · exact b64encodePadded_mem rest (fun b hb => h b (by simp [hb])) c hc

/-- The padded encoding of a nonempty byte list does not strip to
nothing (its first character is in the alphabet). -/
theorem rstripEq_encode_ne_nil (b0 : Nat) (bs : List Nat) (h : ∀ b ∈ b0 :: bs, b < 256) :
    rstripEq 61 (b64encodePadded (b0 :: bs)) ≠ [] := by
  intro hnil
  have hall := rstripEq_eq_nil _ hnil
  have hb0 : b0 < 256 := h b0 (by simp)
  have hhead : b64urlChar (b0 / 4) ∈ b64encodePadded (b0 :: bs) := by
    match bs with
    | [] => simp [b64encodePadded]
    | [b2] => simp [b64encodePadded]
    | b2 :: b3 :: rest => rw [b64encodePadded]; simp
  have := hall _ hhead
  exact (b64urlChar_props (b0 / 4) (by omega)).1 this

/-- Re-padding the stripped encoding recovers the padded encoding: this
is what `_urlsafe_b64decode` does to `_urlsafe_b64encode`'s output. -/
theorem repad_encode : ∀ (bs : List Nat), (∀ b ∈ bs, b < 256) →
    urlsafe_b64encode bs
        ++ List.replicate ((4 - (urlsafe_b64encode bs).length % 4) % 4) 61
      = b64encodePadded bs
  | [], _ => by simp [urlsafe_b64encode, b64encodePadded, rstripEq]
  | [b1], h => by
    have hb : b1 < 256 := h b1 (by simp)
    have n0 := (b64urlChar_props (b1 / 4) (by omega)).1
    have n1 := (b64urlChar_props (b1 % 4 * 16) (by omega)).1
    have m0 : (b64urlChar (b1 / 4) == 61) = false := by simp [n0]
    have m1 : (b64urlChar (b1 % 4 * 16) == 61) = false := by simp [n1]
    have hs : urlsafe_b64encode [b1] = [b64urlChar (b1 / 4), b64urlChar (b1 % 4 * 16)] := by
      simp [urlsafe_b64encode, b64encodePadded, rstripEq, List.dropWhile, m0, m1]
    rw [hs]
    simp [b64encodePadded, List.replicate]
  | [b1, b2], h => by
    have hb1 : b1 < 256 := h b1 (by simp)
    have hb2 : b2 < 256 := h b2 (by simp)
    have n0 := (b64urlChar_props (b1 / 4) (by omega)).1
    have n1 := (b64urlChar_props (b1 % 4 * 16 + b2 / 16) (by omega)).1
    have n2 := (b64urlChar_props (b2 % 16 * 4) (by omega)).1
    have m0 : (b64urlChar (b1 / 4) == 61) = false := by simp [n0]
    have m1 : (b64urlChar (b1 % 4 * 16 + b2 / 16) == 61) = false := by simp [n1]
    have m2 : (b64urlChar (b2 % 16 * 4) == 61) = false := by simp [n2]
    have hs : urlsafe_b64encode [b1, b2]
        = [b64urlChar (b1 / 4), b64urlChar (b1 % 4 * 16 + b2 / 16), b64urlChar (b2 % 16 * 4)] := by
      simp [urlsafe_b64encode, b64encodePadded, rstripEq, List.dropWhile, m0, m1, m2]
    rw [hs]
    simp [b64encodePadded, List.replicate]
  | b1 :: b2 :: b3 :: rest, h => by
    have hb1 : b1 < 256 := h b1 (by simp)
    have hb2 : b2 < 256 := h b2 (by simp)
    have hb3 : b3 < 256 := h b3 (by simp)
    have hrest : ∀ b ∈ rest, b < 256 := fun b hb => h b (by simp [hb])
    match rest with
    | [] =>
      have hall : ∀ x ∈ b64encodePadded [b1, b2, b3], x ≠ 61 := by
        intro x hx
        rw [b64encodePadded] at hx
        simp only [b64encodePadded, List.append_nil, List.mem_cons, List.not_mem_nil,
          or_false] at hx
        rcases hx with rfl | rfl | rfl | rfl
        · exact (b64urlChar_props _ (by omega)).1
        · exact (b64urlChar_props _ (by omega)).1
        · exact (b64urlChar_props _ (by omega)).1
        · exact (b64urlChar_props _ (by omega)).1
      have hs : urlsafe_b64encode [b1, b2, b3] = b64encodePadded [b1, b2, b3] :=
        rstripEq_of_all_ne _ hall
      rw [hs]
      have hlen : (b64encodePadded [b1, b2, b3]).length = 4 := by rw [b64encodePadded]; rfl
      rw [hlen]
      simp
    | r0 :: rest' =>
      have hne := rstripEq_encode_ne_nil r0 rest' (by
        intro b hb; exact hrest b hb)
      have hquad : b64encodePadded (b1 :: b2 :: b3 :: r0 :: rest')
          = [b64urlChar (b1 / 4), b64urlChar (b1 % 4 * 16 + b2 / 16),
             b64urlChar (b2 % 16 * 4 + b3 / 64), b64urlChar (b3 % 64)]
            ++ b64encodePadded (r0 :: rest') := by
        rw [b64encodePadded]; rfl
      have hsplit : urlsafe_b64encode (b1 :: b2 :: b3 :: r0 :: rest')
          = [b64urlChar (b1 / 4), b64urlChar (b1 % 4 * 16 + b2 / 16),
             b64urlChar (b2 % 16 * 4 + b3 / 64), b64urlChar (b3 % 64)]
            ++ urlsafe_b64encode (r0 :: rest') := by
        unfold urlsafe_b64encode
        rw [hquad, rstripEq_append_right _ _ hne]
      rw [hsplit, hquad]
      have hlen : ([b64urlChar (b1 / 4), b64urlChar (b1 % 4 * 16 + b2 / 16),
          b64urlChar (b2 % 16 * 4 + b3 / 64), b64urlChar (b3 % 64)]
            ++ urlsafe_b64encode (r0 :: rest')).length
          = 4 + (urlsafe_b64encode (r0 :: rest')).length := by simp; omega
      rw [hlen]
      have hmod : (4 - (4 + (urlsafe_b64encode (r0 :: rest')).length) % 4) % 4
          = (4 - (urlsafe_b64encode (r0 :: rest')).length % 4) % 4 := by omega
      rw [hmod, List.append_assoc]
      rw [repad_encode (r0 :: rest') hrest]

/-- Every character of a stripped base64url encoding is ASCII and is not
a dot: an encoded segment is one well-formed JWT segment. -/
theorem urlsafe_b64encode_ascii_nodot (bs : List Nat) (h : ∀ b ∈ bs, b < 256) :
    ∀ c ∈ urlsafe_b64encode bs, c < 128 ∧ c ≠ 46 := by
  intro c hc
  have hmem : c ∈ b64encodePadded bs := by
    have hsub : List.Sublist (urlsafe_b64encode bs) (b64encodePadded bs) := by
      unfold urlsafe_b64encode rstripEq
      have h1 : List.Sublist ((b64encodePadded bs).reverse.dropWhile (fun c => c == 61))
          (b64encodePadded bs).reverse := List.dropWhile_sublist _
      have h2 := List.Sublist.reverse h1
      simpa using h2
    exact hsub.mem hc
  rcases b64encodePadded_mem bs h c hmem with rfl | ⟨v, hv, rfl⟩
  · exact ⟨by omega, by omega⟩
  · exact ⟨(b64urlChar_props v hv).2.2, (b64urlChar_props v hv).2.1⟩

/-- `_urlsafe_b64decode ∘ _urlsafe_b64encode` is the identity on byte
lists: the strip-then-repad dance is lossless. -/
theorem urlsafe_b64_roundtrip (bs : List Nat) (h : ∀ b ∈ bs, b < 256) :
    urlsafe_b64decode (urlsafe_b64encode bs) = .ok bs := by
  unfold urlsafe_b64decode
  have hascii : (urlsafe_b64encode bs).all (fun c => c < 128) = true := by
    rw [List.all_eq_true]
    intro c hc
    simpa using (urlsafe_b64encode_ascii_nodot bs h c hc).1
  rw [if_pos hascii, repad_encode bs h]
  simpa using a2bBase64Go_encode bs h []

/-! ## UTF-8 facts -/

/-- ASCII code points UTF-8-encode to themselves, byte for byte. -/
theorem flatten_map_ascii : ∀ (s : List Nat), (∀ c ∈ s, c < 128) →
    (s.map utf8EncodeChar).flatten = s
  | [], _ => by simp
  | c :: rest, h => by
    have hc : c < 128 := h c (by simp)
    simp only [List.map_cons, List.flatten_cons, utf8EncodeChar, if_pos hc]
    rw [flatten_map_ascii rest (fun x hx => h x (by simp [hx]))]
    rfl

/-- `str.encode("utf-8")` on an ASCII string is the identity. -/
theorem pyEncodeUtf8_ascii (s : List Nat) (h : ∀ c ∈ s, c < 128) : pyEncodeUtf8 s = .ok s := by
  unfold pyEncodeUtf8
  have hcheck : s.all (fun c => !(55296 ≤ c && c ≤ 57343)) = true := by
    rw [List.all_eq_true]
    intro c hc
    have := h c hc
    simp
    omega
  rw [if_pos hcheck, flatten_map_ascii s h]

/-- `str.encode("utf-8")` succeeds on every valid Unicode string. -/
theorem pyEncodeUtf8_of_valid (s : List Nat) (h : ValidStr s) :
    pyEncodeUtf8 s = .ok ((s.map utf8EncodeChar).flatten) := by
  unfold pyEncodeUtf8
  have hcheck : s.all (fun c => !(55296 ≤ c && c ≤ 57343)) = true := by
    rw [List.all_eq_true]
    intro c hc
    have := (h c hc).2
    simp
    omega
  rw [if_pos hcheck]

/-- UTF-8 bytes of a valid code point are bytes. -/
theorem utf8EncodeChar_lt_256 (c : Nat) (hc : c < 1114112) : ∀ b ∈ utf8EncodeChar c, b < 256 := by
  intro b hb
  unfold utf8EncodeChar at hb
  split_ifs at hb <;> simp at hb <;> omega

/-- UTF-8 bytes of a valid string are bytes. -/
theorem utf8_flatten_lt_256 (s : List Nat) (h : ValidStr s) :
    ∀ b ∈ (s.map utf8EncodeChar).flatten, b < 256 := by
  intro b hb
  rw [List.mem_flatten] at hb
  rcases hb with ⟨l, hl, hbl⟩
  rw [List.mem_map] at hl
  rcases hl with ⟨c, hc, rfl⟩
  exact utf8EncodeChar_lt_256 c (h c hc).1 b hbl

/-- UTF-8 encoding introduces a zero byte only for the NUL code point. -/
theorem utf8_flatten_no_nul (s : List Nat) (h0 : 0 ∉ s) :
    ¬ ((s.map utf8EncodeChar).flatten.contains 0) := by
  intro hcon
  rw [List.contains_eq_any_beq, List.any_eq_true] at hcon
  rcases hcon with ⟨b, hb, hbeq⟩
  simp only [beq_iff_eq] at hbeq
  subst hbeq
  rw [List.mem_flatten] at hb
  rcases hb with ⟨l, hl, hbl⟩
  rw [List.mem_map] at hl
  rcases hl with ⟨c, hc, rfl⟩
  unfold utf8EncodeChar at hbl
  split_ifs at hbl <;> simp at hbl
  · subst hbl; exact h0 hc
  · rcases hbl with h | h <;> omega
  · rcases hbl with h | h | h <;> omega
  · rcases hbl with h | h | h | h <;> omega

/-- Strict UTF-8 decoding of ASCII bytes is the identity. -/
theorem utf8Decode_ascii : ∀ (bs : List Nat), (∀ b ∈ bs, b < 128) → utf8Decode bs = .ok bs
  | [], _ => rfl
  | b :: rest, h => by
    have hb : b < 128 := h b (by simp)
    have hr := utf8Decode_ascii rest (fun x hx => h x (by simp [hx]))
    rw [utf8Decode, if_pos hb, hr]
    rfl

/-! ## `json.dumps` output is ASCII (that is what `ensure_ascii` means) -/

/-- A hex digit character is ASCII. -/
theorem hexDigit_lt_128 : ∀ d < 16, hexDigit d < 128 := by decide

/-- All four characters of `hex4` are ASCII. -/
theorem hex4_ascii (n : Nat) : ∀ x ∈ hex4 n, x < 128 := by
  intro x hx
  simp only [hex4, List.mem_cons, List.not_mem_nil, or_false] at hx
  rcases hx with rfl | rfl | rfl | rfl <;> exact hexDigit_lt_128 _ (by omega)

/-- Every character `escChar` emits is ASCII. -/
theorem escChar_ascii (c : Nat) : ∀ x ∈ escChar c, x < 128 := by
  intro x hx
  unfold escChar at hx
  split_ifs at hx with h1 h2 h3 h4 h5 h6 h7 h8 h9 h10 <;>
    simp only [List.mem_cons, List.mem_append, List.not_mem_nil, or_false] at hx
  · rcases hx with rfl | rfl <;> omega
  · rcases hx with rfl | rfl <;> omega
  · rcases hx with rfl | rfl <;> omega
  · rcases hx with rfl | rfl <;> omega
  · rcases hx with rfl | rfl <;> omega
  · rcases hx with rfl | rfl <;> omega
  · rcases hx with rfl | rfl <;> omega
  · rcases hx with rfl | rfl | hx
    · omega
    · omega
    · exact hex4_ascii _ _ hx
  · subst hx; omega
  · rcases hx with rfl | rfl | hx
    · omega
    · omega
    · exact hex4_ascii _ _ hx
  · rcases hx with (rfl | rfl | hx) | (rfl | rfl | hx)
    · omega
    · omega
    · exact hex4_ascii _ _ hx
    · omega
    · omega
    · exact hex4_ascii _ _ hx

/-- A serialized JSON string is ASCII. -/
theorem dumpsStr_ascii (s : List Nat) : ∀ x ∈ dumpsStr s, x < 128 := by
  intro x hx
  unfold dumpsStr at hx
  rcases List.mem_cons.mp hx with rfl | hx2
  · omega
  rcases List.mem_append.mp hx2 with hx3 | hx4
  · rw [List.mem_flatten] at hx3
    rcases hx3 with ⟨l, hl, hxl⟩
    rw [List.mem_map] at hl
    rcases hl with ⟨c, _, rfl⟩
    exact escChar_ascii c x hxl
  · have : x = 34 := by simpa using hx4
    omega

/-- Decimal digit characters are digits. -/
theorem natDecimalGo_digits : ∀ (fuel n : Nat), ∀ x ∈ natDecimalGo fuel n, 48 ≤ x ∧ x ≤ 57
  | 0, _ => by simp [natDecimalGo]
  | fuel + 1, n => by
    intro x hx
    unfold natDecimalGo at hx
    split_ifs at hx with h
    · simp at hx; omega
    · simp only [List.mem_append, List.mem_cons, List.not_mem_nil, or_false] at hx
      rcases hx with hx | rfl
      · exact natDecimalGo_digits fuel (n / 10) x hx
      · omega

/-- A serialized integer is ASCII. -/
theorem intDecimal_ascii (n : Int) : ∀ x ∈ intDecimal n, x < 128 := by
  intro x hx
  unfold intDecimal at hx
  split_ifs at hx
  · simp only [List.mem_cons] at hx
    rcases hx with rfl | hx
    · omega
    · have := natDecimalGo_digits _ _ x hx
      omega
  · have := natDecimalGo_digits _ _ x hx
    omega

mutual

/-- `json.dumps` output is ASCII for every value. -/
theorem dumps_ascii : ∀ (j : PyJson), ∀ x ∈ dumps j, x < 128
  | .null => by
    intro x hx
    simp only [dumps, List.mem_cons, List.not_mem_nil, or_false] at hx
    rcases hx with rfl | rfl | rfl | rfl <;> omega
  | .bool true => by
    intro x hx
    simp only [dumps, List.mem_cons, List.not_mem_nil, or_false] at hx
    rcases hx with rfl | rfl | rfl | rfl <;> omega
  | .bool false => by
    intro x hx
    simp only [dumps, List.mem_cons, List.not_mem_nil, or_false] at hx
    rcases hx with rfl | rfl | rfl | rfl | rfl <;> omega
  | .num n => by intro x hx; exact intDecimal_ascii n x (by simpa [dumps] using hx)
  | .str s => by intro x hx; exact dumpsStr_ascii s x (by simpa [dumps] using hx)
  | .arr es => by
    intro x hx
    unfold dumps at hx
    rcases List.mem_cons.mp hx with rfl | hx2
    · omega
    rcases List.mem_append.mp hx2 with hx3 | hx4
    · exact dumpsElems_ascii es x hx3
    · have : x = 93 := by simpa using hx4
      omega
  | .obj ms => by
    intro x hx
    unfold dumps at hx
    rcases List.mem_cons.mp hx with rfl | hx2
    · omega
    rcases List.mem_append.mp hx2 with hx3 | hx4
    · exact dumpsMembers_ascii ms x hx3
    · have : x = 125 := by simpa using hx4
      omega

/-- Serialized array elements are ASCII. -/
theorem dumpsElems_ascii : ∀ (es : List PyJson), ∀ x ∈ dumpsElems es, x < 128
  | [] => by simp [dumpsElems]
  | [e] => by
    intro x hx
    exact dumps_ascii e x (by simpa [dumpsElems] using hx)
  | e :: e2 :: rest => by
    intro x hx
    unfold dumpsElems at hx
    rcases List.mem_append.mp hx with hx1 | hx2
    · exact dumps_ascii e x hx1
    rcases List.mem_cons.mp hx2 with rfl | hx3
    · omega
    · exact dumpsElems_ascii (e2 :: rest) x hx3

/-- Serialized object members are ASCII. -/
theorem dumpsMembers_ascii : ∀ (ms : List (List Nat × PyJson)), ∀ x ∈ dumpsMembers ms, x < 128
  | [] => by simp [dumpsMembers]
  | [(k, v)] => by
    intro x hx
    unfold dumpsMembers at hx
    rcases List.mem_append.mp hx with hx1 | hx2
    · exact dumpsStr_ascii k x hx1
    rcases List.mem_cons.mp hx2 with rfl | hx3
    · omega
    · exact dumps_ascii v x hx3
  | (k, v) :: m2 :: rest => by
    intro x hx
    unfold dumpsMembers at hx
    rcases List.mem_append.mp hx with hx1 | hx2
    · rcases List.mem_append.mp hx1 with hk | hv
      · exact dumpsStr_ascii k x hk
      rcases List.mem_cons.mp hv with rfl | hv2
      · omega
      · exact dumps_ascii v x hv2
    · rcases List.mem_cons.mp hx2 with rfl | hx3
      · omega
      · exact dumpsMembers_ascii (m2 :: rest) x hx3

end

/-! ## `str.split(".")` -/

/-- `splitOnDot` always yields at least one segment. -/
theorem splitOnDot_eq_cons : ∀ (l : List Nat), ∃ seg segs, splitOnDot l = seg :: segs
  | [] => ⟨[], [], rfl⟩
  | c :: rest => by
    rcases splitOnDot_eq_cons rest with ⟨seg, segs, hr⟩
    unfold splitOnDot
    by_cases hc : c = 46
    · exact ⟨[], splitOnDot rest, by simp [hc]⟩
    · exact ⟨c :: seg, segs, by simp [hc, hr]⟩

/-- A dot-free string is a single segment. -/
theorem splitOnDot_nodot : ∀ (l : List Nat), NoDot l → splitOnDot l = [l]
  | [], _ => rfl
  | c :: rest, h => by
    have hc : c ≠ 46 := fun hc => h (hc ▸ List.mem_cons_self c rest)
    have hr : splitOnDot rest = [rest] :=
      splitOnDot_nodot rest (fun hmem => h (List.mem_cons_of_mem c hmem))
    unfold splitOnDot
    simp [hc, hr]

/-- Prepending a dot-free string extends the first segment. -/
theorem splitOnDot_prepend : ∀ (a l : List Nat) (seg : List Nat) (segs : List (List Nat)),
    NoDot a → splitOnDot l = seg :: segs → splitOnDot (a ++ l) = (a ++ seg) :: segs
  | [], l, seg, segs, _, hl => by simpa using hl
  | c :: a', l, seg, segs, ha, hl => by
    have hc : c ≠ 46 := fun hc => ha (hc ▸ List.mem_cons_self c a')
    have := splitOnDot_prepend a' l seg segs
      (fun hmem => ha (List.mem_cons_of_mem c hmem)) hl
    unfold splitOnDot
    simp [hc, this]

/-- Splitting a well-formed three-segment token. -/
theorem splitOnDot_token (h p s : List Nat) (hh : NoDot h) (hp : NoDot p) (hs : NoDot s) :
    splitOnDot (h ++ 46 :: (p ++ 46 :: s)) = [h, p, s] := by
  have hs1 : splitOnDot (46 :: s) = [] :: [s] := by
    unfold splitOnDot
    simp [splitOnDot_nodot s hs]
  have hs2 : splitOnDot (p ++ 46 :: s) = [p, s] := by
    have := splitOnDot_prepend p (46 :: s) [] [s] hp (by simpa using hs1)
    simpa using this
  have hs3 : splitOnDot (46 :: (p ++ 46 :: s)) = [] :: [p, s] := by
    unfold splitOnDot
    simp [hs2]
  have := splitOnDot_prepend h (46 :: (p ++ 46 :: s)) [] [p, s] hh (by simpa using hs3)
  simpa using this

/-! ## The JSON parser inverts `json.dumps` on the payloads in play -/

/-- Hex digit inversion. -/
theorem hexVal_hexDigit : ∀ d < 16, hexVal (hexDigit d) = some d := by decide

/-- The parser reading the four digits of `hex4 n` reconstructs `n`. -/
theorem hex4_recombine (n : Nat) (h : n < 65536) :
    ((n / 4096 % 16 * 16 + n / 256 % 16) * 16 + n / 16 % 16) * 16 + n % 16 = n := by omega

/-- `hexVal4` of the four `hex4` digits of `n` recovers `n`. -/
theorem hexVal4_hexDigits (n : Nat) (hn : n < 65536) :
    hexVal4 (hexDigit (n / 4096 % 16)) (hexDigit (n / 256 % 16))
      (hexDigit (n / 16 % 16)) (hexDigit (n % 16)) = some n := by
  unfold hexVal4
  rw [hexVal_hexDigit (n / 4096 % 16) (by omega), hexVal_hexDigit (n / 256 % 16) (by omega),
    hexVal_hexDigit (n / 16 % 16) (by omega), hexVal_hexDigit (n % 16) (by omega)]
  show some (((n / 4096 % 16 * 16 + n / 256 % 16) * 16 + n / 16 % 16) * 16 + n % 16) = some n
  rw [hex4_recombine n hn]

/-- A backslash enters escape mode. -/
theorem parseJString_backslash (rest : List Nat) :
    parseJString (92 :: rest) = parseJEscape rest := by
  simp [parseJString]

/-- `u` after a backslash enters the `\uXXXX` reader. -/
theorem parseJEscape_u (rest : List Nat) : parseJEscape (117 :: rest) = parseJUnicode rest := by
  simp [parseJEscape]

/-- A non-surrogate `\uXXXX` value continues the string directly. -/
theorem parseJUnicode_scalar (h1 h2 h3 h4 : Nat) (rest3 : List Nat) (u : Nat)
    (hx : hexVal4 h1 h2 h3 h4 = some u) (hns : ¬(55296 ≤ u ∧ u ≤ 57343)) :
    parseJUnicode (h1 :: h2 :: h3 :: h4 :: rest3)
      = (parseJString rest3).map (fun p => (u :: p.1, p.2)) := by
  simp only [parseJUnicode, hx]
  rw [if_neg (by omega : ¬(55296 ≤ u ∧ u ≤ 56319)), if_neg (by omega : ¬(56320 ≤ u ∧ u ≤ 57343))]

/-- A high-surrogate `\uXXXX` value defers to the pair reader. -/
theorem parseJUnicode_high (h1 h2 h3 h4 : Nat) (rest3 : List Nat) (u : Nat)
    (hx : hexVal4 h1 h2 h3 h4 = some u) (hr : 55296 ≤ u ∧ u ≤ 56319) :
    parseJUnicode (h1 :: h2 :: h3 :: h4 :: rest3) = parseJPair u rest3 := by
  simp only [parseJUnicode, hx]
  rw [if_pos hr]

/-- The pair reader consumes a low-surrogate escape and combines. -/
theorem parseJPair_low (u g1 g2 g3 g4 : Nat) (rest4 : List Nat) (v : Nat)
    (hx : hexVal4 g1 g2 g3 g4 = some v) (hr : 56320 ≤ v ∧ v ≤ 57343) :
    parseJPair u (92 :: 117 :: g1 :: g2 :: g3 :: g4 :: rest4)
      = (parseJString rest4).map
          (fun p => ((65536 + (u - 55296) * 1024 + (v - 56320)) :: p.1, p.2)) := by
  simp only [parseJPair, hx]
  rw [if_pos hr]

/-- Reading one `\uXXXX` escape of a non-surrogate value continues the
string with that code point. -/
theorem parseJString_u_step (n : Nat) (hn : n < 65536) (hns : ¬(55296 ≤ n ∧ n ≤ 57343))
    (tail s' rest : List Nat) (ih : parseJString tail = some (s', rest)) :
    parseJString (92 :: 117 :: (hex4 n ++ tail)) = some (n :: s', rest) := by
  rw [parseJString_backslash, parseJEscape_u]
  rw [show hex4 n ++ tail = hexDigit (n / 4096 % 16) :: hexDigit (n / 256 % 16)
        :: hexDigit (n / 16 % 16) :: hexDigit (n % 16) :: tail from rfl]
  rw [parseJUnicode_scalar _ _ _ _ tail n (hexVal4_hexDigits n hn) hns, ih]
  rfl

/-- Reading an escaped surrogate pair continues the string with the
combined astral code point. -/
theorem parseJString_pair_step (c : Nat) (hlow : 65536 ≤ c) (hhi : c < 1114112)
    (tail s' rest : List Nat) (ih : parseJString tail = some (s', rest)) :
    parseJString ((92 :: 117 :: hex4 (55296 + (c - 65536) / 1024))
        ++ (92 :: 117 :: (hex4 (56320 + (c - 65536) % 1024) ++ tail)))
      = some (c :: s', rest) := by
  have hx4hi := hexVal4_hexDigits (55296 + (c - 65536) / 1024) (by omega)
  have hx4lo := hexVal4_hexDigits (56320 + (c - 65536) % 1024) (by omega)
  rw [List.cons_append, List.cons_append, parseJString_backslash, parseJEscape_u]
  rw [show hex4 (55296 + (c - 65536) / 1024)
        ++ (92 :: 117 :: (hex4 (56320 + (c - 65536) % 1024) ++ tail))
      = hexDigit ((55296 + (c - 65536) / 1024) / 4096 % 16)
        :: hexDigit ((55296 + (c - 65536) / 1024) / 256 % 16)
        :: hexDigit ((55296 + (c - 65536) / 1024) / 16 % 16)
        :: hexDigit ((55296 + (c - 65536) / 1024) % 16)
        :: (92 :: 117 :: hexDigit ((56320 + (c - 65536) % 1024) / 4096 % 16)
            :: hexDigit ((56320 + (c - 65536) % 1024) / 256 % 16)
            :: hexDigit ((56320 + (c - 65536) % 1024) / 16 % 16)
            :: hexDigit ((56320 + (c - 65536) % 1024) % 16) :: tail) from rfl]
  rw [parseJUnicode_high _ _ _ _ _ _ hx4hi (by omega)]
  rw [parseJPair_low _ _ _ _ _ _ _ hx4lo (by omega)]
  rw [ih]
  have : 65536 + (55296 + (c - 65536) / 1024 - 55296) * 1024
      + (56320 + (c - 65536) % 1024 - 56320) = c := by omega
  simp [this]
  omega

/-- Reading one serialized character continues the string with it. -/
theorem parseJString_escChar_step (c : Nat) (hc1 : c < 1114112)
    (hc2 : ¬(55296 ≤ c ∧ c ≤ 57343)) (tail s' rest : List Nat)
    (ih : parseJString tail = some (s', rest)) :
    parseJString (escChar c ++ tail) = some (c :: s', rest) := by
  by_cases h34 : c = 34
  · subst h34
    simp [escChar, parseJString, parseJEscape, ih]
  by_cases h92 : c = 92
  · subst h92
    simp [escChar, parseJString, parseJEscape, ih]
  by_cases h8 : c = 8
  · subst h8
    simp [escChar, parseJString, parseJEscape, ih]
  by_cases h9 : c = 9
  · subst h9
    simp [escChar, parseJString, parseJEscape, ih]
  by_cases h10 : c = 10
  · subst h10
    simp [escChar, parseJString, parseJEscape, ih]
  by_cases h12 : c = 12
  · subst h12
    simp [escChar, parseJString, parseJEscape, ih]
  by_cases h13 : c = 13
  · subst h13
    simp [escChar, parseJString, parseJEscape, ih]
  by_cases hctl : c < 32
  · have hesc : escChar c = 92 :: 117 :: hex4 c := by
      unfold escChar
      rw [if_neg h34, if_neg h92, if_neg h8, if_neg h9, if_neg h10, if_neg h12, if_neg h13,
        if_pos hctl]
    rw [hesc, List.cons_append, List.cons_append]
    exact parseJString_u_step c (by omega) (by omega) tail s' rest ih
  by_cases hlit : c < 127
  · have hesc : escChar c = [c] := by
      unfold escChar
      rw [if_neg h34, if_neg h92, if_neg h8, if_neg h9, if_neg h10, if_neg h12, if_neg h13,
        if_neg hctl, if_pos hlit]
    rw [hesc]
    simp only [List.cons_append, List.nil_append]
    simp [parseJString, h34, h92, show ¬ c < 32 by omega, ih]
  by_cases hbmp : c < 65536
  · have hesc : escChar c = 92 :: 117 :: hex4 c := by
      unfold escChar
      rw [if_neg h34, if_neg h92, if_neg h8, if_neg h9, if_neg h10, if_neg h12, if_neg h13,
        if_neg hctl, if_neg hlit, if_pos hbmp]
    rw [hesc, List.cons_append, List.cons_append]
    exact parseJString_u_step c hbmp hc2 tail s' rest ih
  · have hesc : escChar c = (92 :: 117 :: hex4 (55296 + (c - 65536) / 1024))
        ++ (92 :: 117 :: hex4 (56320 + (c - 65536) % 1024)) := by
      unfold escChar
      rw [if_neg h34, if_neg h92, if_neg h8, if_neg h9, if_neg h10, if_neg h12, if_neg h13,
        if_neg hctl, if_neg hlit, if_neg hbmp]
    rw [hesc]
    have hshape : ((92 :: 117 :: hex4 (55296 + (c - 65536) / 1024))
          ++ (92 :: 117 :: hex4 (56320 + (c - 65536) % 1024))) ++ tail
        = (92 :: 117 :: hex4 (55296 + (c - 65536) / 1024))
          ++ (92 :: 117 :: (hex4 (56320 + (c - 65536) % 1024) ++ tail)) := by
      simp [List.append_assoc]
    rw [hshape]
    exact parseJString_pair_step c (by omega) hc1 tail s' rest ih

/-- `parseJString` inverts `escChar`-serialization: reading the escaped
body of a valid string up to the closing quote yields the string back. -/
theorem parseJString_escape : ∀ (s : List Nat), ValidStr s → ∀ rest : List Nat,
    parseJString ((s.map escChar).flatten ++ 34 :: rest) = some (s, rest)
  | [], _, rest => by simp [parseJString]
  | c :: s', h, rest => by
    have ih := parseJString_escape s' (fun x hx => h x (by simp [hx])) rest
    rw [List.map_cons, List.flatten_cons, List.append_assoc]
    exact parseJString_escChar_step c (h c (by simp)).1 (h c (by simp)).2 _ s' rest ih

/-- `digitsNat` consumes exactly a run of digits, folding them onto the
accumulator, and stops at a non-digit boundary. -/
theorem digitsNat_append : ∀ (ds : List Nat) (acc : Nat) (rest : List Nat),
    (∀ d ∈ ds, 48 ≤ d ∧ d ≤ 57) →
    (∀ r0, rest.head? = some r0 → ¬(48 ≤ r0 ∧ r0 ≤ 57)) →
    digitsNat (ds ++ rest) acc = (ds.foldl (fun a d => a * 10 + (d - 48)) acc, rest)
  | [], acc, rest, _, hrest => by
    cases rest with
    | nil => rfl
    | cons r0 rest' =>
      have := hrest r0 rfl
      simp only [List.nil_append, List.foldl_nil, digitsNat]
      rw [if_neg this]
  | d :: ds', acc, rest, hds, hrest => by
    have hd : 48 ≤ d ∧ d ≤ 57 := hds d (by simp)
    have ih := digitsNat_append ds' (acc * 10 + (d - 48)) rest
      (fun x hx => hds x (by simp [hx])) hrest
    simp only [List.cons_append, digitsNat, List.foldl_cons]
    rw [if_pos hd]
    exact ih

/-- Shape, digit range, and place value of `natDecimalGo`'s output
(with fuel beyond the number of digits). -/
theorem natDecimalGo_spec : ∀ (fuel n : Nat), n < 10 ^ (fuel + 1) →
    (natDecimalGo (fuel + 1) n ≠ []
      ∧ (∀ d ∈ natDecimalGo (fuel + 1) n, 48 ≤ d ∧ d ≤ 57)
      ∧ (∀ acc, (natDecimalGo (fuel + 1) n).foldl (fun a d => a * 10 + (d - 48)) acc
          = acc * 10 ^ (natDecimalGo (fuel + 1) n).length + n)
      ∧ (1 ≤ n → ∃ d0 t, natDecimalGo (fuel + 1) n = d0 :: t ∧ 49 ≤ d0 ∧ d0 ≤ 57))
  | fuel, n, hn => by
    by_cases h10 : n < 10
    · refine ⟨by simp [natDecimalGo, h10], ?_, ?_, ?_⟩
      · intro d hd
        simp [natDecimalGo, h10] at hd
        omega
      · intro acc
        simp [natDecimalGo, h10]
        try omega
      · intro h1
        exact ⟨48 + n, [], by simp [natDecimalGo, h10], by omega, by omega⟩
    · match fuel with
      | 0 =>
        exact absurd hn (by simpa using h10)
      | fuel' + 1 =>
      have hq : n / 10 < 10 ^ (fuel' + 1) := by
        have hpow : 10 ^ (fuel' + 1) * 10 = 10 ^ (fuel' + 1 + 1) := by ring
        omega
      obtain ⟨hne, hdig, hfold, hhead⟩ := natDecimalGo_spec fuel' (n / 10) hq
      have hgo : natDecimalGo (fuel' + 1 + 1) n
          = natDecimalGo (fuel' + 1) (n / 10) ++ [48 + n % 10] := by
        simp [natDecimalGo, h10]
      refine ⟨by simp [hgo], ?_, ?_, ?_⟩
      · intro d hd
        rw [hgo] at hd
        rcases List.mem_append.mp hd with hd1 | hd2
        · exact hdig d hd1
        · have : d = 48 + n % 10 := by simpa using hd2
          omega
      · intro acc
        rw [hgo, List.foldl_append, hfold acc]
        simp [List.length_append]
        ring_nf
        omega
      · intro _
        obtain ⟨d0, t, hshape, hd0⟩ := hhead (by omega)
        exact ⟨d0, t ++ [48 + n % 10], by rw [hgo, hshape]; rfl, hd0.1, hd0.2⟩

/-- `parseUIntTok` inverts `natDecimal` at a numeric boundary. -/
theorem parseUIntTok_natDecimal (n : Nat) (rest : List Nat) (hrest : NumBoundary rest) :
    parseUIntTok (natDecimal n ++ rest) = some (n, rest) := by
  by_cases h0 : n = 0
  · subst h0
    show parseUIntTok ((48 :: []) ++ rest) = some (0, rest)
    cases rest with
    | nil => rfl
    | cons r0 rest' =>
      obtain ⟨-, h46, h101, h69⟩ := hrest r0 rfl
      simp only [List.cons_append, List.nil_append, parseUIntTok]
      simp [h46, h101, h69]
  · have hbound : n < 10 ^ (n + 1) := by
      have h1 : n < 2 ^ n := Nat.lt_two_pow n
      have h2 : (2:ℕ) ^ n ≤ 10 ^ n := Nat.pow_le_pow_left (by omega) n
      have h3 : (10:ℕ) ^ n ≤ 10 ^ (n + 1) := Nat.pow_le_pow_right (by omega) (by omega)
      omega
    obtain ⟨-, hdig, hfold, hhead⟩ := natDecimalGo_spec n n hbound
    obtain ⟨d0, t, hshape, hd01, hd02⟩ := hhead (by omega)
    have ht : ∀ d ∈ t, 48 ≤ d ∧ d ≤ 57 := fun d hd => hdig d (by simp [hshape, hd])
    have hdg := digitsNat_append t (d0 - 48) rest ht
      (fun r0 hr0 => ((hrest r0 hr0).1))
    have hvalue : t.foldl (fun a d => a * 10 + (d - 48)) (d0 - 48) = n := by
      have := hfold 0
      rw [hshape] at this
      simp only [List.foldl_cons] at this
      simpa using this
    unfold natDecimal
    rw [hshape, List.cons_append]
    simp only [parseUIntTok]
    rw [if_neg (by omega : ¬ d0 = 48), if_pos (by omega : 49 ≤ d0 ∧ d0 ≤ 57)]
    simp only [hdg, hvalue]
    cases rest with
    | nil => rfl
    | cons r0 rest' =>
      obtain ⟨-, h46, h101, h69⟩ := hrest r0 rfl
      simp [h46, h101, h69]

/-- `parseIntTok` inverts `intDecimal` at a numeric boundary. -/
theorem parseIntTok_intDecimal (n : Int) (rest : List Nat) (hrest : NumBoundary rest) :
    parseIntTok (intDecimal n ++ rest) = some (n, rest) := by
  by_cases hneg : n < 0
  · have hd : intDecimal n = 45 :: natDecimal (-n).toNat := by
      unfold intDecimal
      rw [if_pos hneg]
    rw [hd, List.cons_append]
    simp only [parseIntTok, if_true]
    rw [parseUIntTok_natDecimal (-n).toNat rest hrest]
    simp
    omega
  · have hd : intDecimal n = natDecimal n.toNat := by
      unfold intDecimal
      rw [if_neg hneg]
    rw [hd]
    have hu := parseUIntTok_natDecimal n.toNat rest hrest
    have hhead : ∃ c t, natDecimal n.toNat ++ rest = c :: t ∧ ¬ c = 45 := by
      by_cases h0 : n.toNat = 0
      · refine ⟨48, rest, ?_, by omega⟩
        rw [h0]
        rfl
      · have hbound : n.toNat < 10 ^ (n.toNat + 1) := by
          have h1 : n.toNat < 2 ^ n.toNat := Nat.lt_two_pow n.toNat
          have h2 : (2:ℕ) ^ n.toNat ≤ 10 ^ n.toNat := Nat.pow_le_pow_left (by omega) n.toNat
          have h3 : (10:ℕ) ^ n.toNat ≤ 10 ^ (n.toNat + 1) :=
            Nat.pow_le_pow_right (by omega) (by omega)
          omega
        obtain ⟨-, -, -, hhd⟩ := natDecimalGo_spec n.toNat n.toNat hbound
        obtain ⟨d0, t, hshape, hd01, hd02⟩ := hhd (by omega)
        exact ⟨d0, t ++ rest,
          by rw [show natDecimal n.toNat = natDecimalGo (n.toNat + 1) n.toNat from rfl, hshape]
             rfl,
          by omega⟩
    obtain ⟨c, t, hct, hc45⟩ := hhead
    rw [hct]
    simp only [parseIntTok]
    rw [if_neg hc45, ← hct, hu]
    simp
    omega

/-- `skipWs` is the identity at a non-whitespace head. -/
theorem skipWs_cons (c : Nat) (l : List Nat) (h : isJsonWs c = false) : skipWs (c :: l) = c :: l := by
  simp [skipWs, List.dropWhile_cons, h]

/-- Characters that are not among the four JSON whitespace characters. -/
theorem isJsonWs_false (c : Nat) (h : c ≠ 32 ∧ c ≠ 9 ∧ c ≠ 10 ∧ c ≠ 13) : isJsonWs c = false := by
  simp [isJsonWs]
  omega

/-- A value starting with a quote is a string parse. -/
theorem parseValue_quote (fuel : Nat) (X : List Nat) :
    parseValue (fuel + 1) (34 :: X) = (parseJString X).map (fun p => (PyJson.str p.1, p.2)) := by
  simp only [parseValue]
  rw [skipWs_cons 34 X (by decide)]
  simp

/-- Parsing a serialized valid string yields it back. -/
theorem parseValue_str (fuel : Nat) (s : List Nat) (rest : List Nat) (hs : ValidStr s) :
    parseValue (fuel + 1) (dumps (.str s) ++ rest) = some (.str s, rest) := by
  have hshape : dumps (.str s) ++ rest = 34 :: ((s.map escChar).flatten ++ 34 :: rest) := by
    simp [dumps, dumpsStr]
  rw [hshape, parseValue_quote, parseJString_escape s hs rest]
  rfl

/-- The first character of a serialized integer. -/
theorem intDecimal_head (n : Int) :
    ∃ c t, intDecimal n = c :: t ∧ (c = 45 ∨ (48 ≤ c ∧ c ≤ 57)) := by
  by_cases hneg : n < 0
  · exact ⟨45, natDecimal (-n).toNat, by unfold intDecimal; rw [if_pos hneg], .inl rfl⟩
  · by_cases h0 : n.toNat = 0
    · refine ⟨48, [], ?_, .inr (by omega)⟩
      unfold intDecimal
      rw [if_neg hneg, h0]
      rfl
    · have hbound : n.toNat < 10 ^ (n.toNat + 1) := by
        have h1 : n.toNat < 2 ^ n.toNat := Nat.lt_two_pow n.toNat
        have h2 : (2:ℕ) ^ n.toNat ≤ 10 ^ n.toNat := Nat.pow_le_pow_left (by omega) n.toNat
        have h3 : (10:ℕ) ^ n.toNat ≤ 10 ^ (n.toNat + 1) :=
          Nat.pow_le_pow_right (by omega) (by omega)
        omega
      obtain ⟨-, -, -, hhd⟩ := natDecimalGo_spec n.toNat n.toNat hbound
      obtain ⟨d0, t, hshape, hd01, hd02⟩ := hhd (by omega)
      refine ⟨d0, t, ?_, .inr (by omega)⟩
      unfold intDecimal
      rw [if_neg hneg]
      exact hshape

/-- Parsing a serialized integer yields it back. -/
theorem parseValue_num (fuel : Nat) (n : Int) (rest : List Nat) (hrest : NumBoundary rest) :
    parseValue (fuel + 1) (dumps (.num n) ++ rest) = some (.num n, rest) := by
  obtain ⟨c, t, hct, hc⟩ := intDecimal_head n
  have hd : dumps (.num n) = intDecimal n := rfl
  rw [hd, hct, List.cons_append]
  simp only [parseValue]
  rw [skipWs_cons c (t ++ rest) (isJsonWs_false c (by omega))]
  have hpi : parseIntTok (c :: (t ++ rest)) = some (n, rest) := by
    rw [← List.cons_append, ← hct]
    exact parseIntTok_intDecimal n rest hrest
  simp only
  rw [if_neg (by omega : ¬ c = 34), if_neg (by omega : ¬ c = 123), if_neg (by omega : ¬ c = 91),
    if_neg (by omega : ¬ c = 116), if_neg (by omega : ¬ c = 102), if_neg (by omega : ¬ c = 110),
    if_pos (by omega : c = 45 ∨ (48 ≤ c ∧ c ≤ 57))]
  rw [hpi]
  rfl

/-- Parsing any serialized flat leaf yields it back. -/
theorem parseValue_flat (fuel : Nat) (v : PyJson) (rest : List Nat)
    (hv : FlatVal v) (hrest : NumBoundary rest) :
    parseValue (fuel + 1) (dumps v ++ rest) = some (v, rest) := by
  rcases hv with ⟨s, rfl, hs⟩ | ⟨n, rfl⟩
  · exact parseValue_str fuel s rest hs
  · exact parseValue_num fuel n rest hrest

/-- Non-empty serialized member lists start with a quote. -/
theorem dumpsMembers_head (k : List Nat) (v : PyJson) (tail : List (List Nat × PyJson)) :
    ∃ t, dumpsMembers ((k, v) :: tail) = 34 :: t := by
  cases tail with
  | nil => exact ⟨(k.map escChar).flatten ++ 34 :: (58 :: dumps v), by simp [dumpsMembers, dumpsStr]⟩
  | cons m2 rest =>
    exact ⟨(k.map escChar).flatten ++ 34 :: (58 :: (dumps v ++ 44 :: dumpsMembers (m2 :: rest))),
      by simp [dumpsMembers, dumpsStr]⟩

/-- Serialized members are at least as long as the member list. -/
theorem dumpsMembers_length : ∀ (ms : List (List Nat × PyJson)), ms.length ≤ (dumpsMembers ms).length
  | [] => by simp [dumpsMembers]
  | [(k, v)] => by
    simp [dumpsMembers, dumpsStr]
  | (k, v) :: m2 :: rest => by
    have ih := dumpsMembers_length (m2 :: rest)
    simp only [dumpsMembers, dumpsStr]
    simp only [List.length_cons, List.length_append, List.length_cons] at ih ⊢
    omega

/-- One unfolding step of `parseMembers` at a quote-headed input, leaving the
recursive occurrences folded. -/
theorem parseMembers_step (fuel : Nat) (X : List Nat) :
    parseMembers (fuel + 1) (34 :: X) =
      (parseJString X).bind (fun pk =>
        match skipWs pk.2 with
        | 58 :: r2 =>
          (parseValue fuel r2).bind (fun pv =>
            match skipWs pv.2 with
            | 44 :: r4 =>
              (parseMembers fuel (skipWs r4)).map (fun pm => ((pk.1, pv.1) :: pm.1, pm.2))
            | 125 :: r4 => some ([(pk.1, pv.1)], r4)
            | _ => none)
        | _ => none) := rfl

/-- `parseMembers` inverts `dumpsMembers` on flat member lists, consuming
through the closing brace. -/
theorem parseMembers_flat : ∀ (ms : List (List Nat × PyJson)) (fuel : Nat) (rest : List Nat),
    ms ≠ [] → ms.length ≤ fuel →
    (∀ m ∈ ms, ValidStr m.1 ∧ FlatVal m.2) →
    parseMembers (fuel + 1) (dumpsMembers ms ++ 125 :: rest) = some (ms, rest)
  | [], _, _, hne, _, _ => absurd rfl hne
  | [(k, v)], fuel, rest, _, hfuel, hms => by
    obtain ⟨hk, hv⟩ := hms (k, v) (by simp)
    obtain ⟨f, rfl⟩ : ∃ f, fuel = f + 1 := ⟨fuel - 1, by simp at hfuel; omega⟩
    have hshape : dumpsMembers [(k, v)] ++ 125 :: rest
        = 34 :: ((k.map escChar).flatten ++ 34 :: (58 :: (dumps v ++ 125 :: rest))) := by
      simp [dumpsMembers, dumpsStr]
    rw [hshape]
    simp only [parseMembers]
    rw [parseJString_escape k hk (58 :: (dumps v ++ 125 :: rest))]
    simp only [Option.some_bind]
    rw [skipWs_cons 58 _ (by decide)]
    simp only
    rw [parseValue_flat f v (125 :: rest) hv
      (by intro r0 h0; simp at h0; omega)]
    simp only [Option.some_bind]
    rw [skipWs_cons 125 rest (by decide)]
  | (k, v) :: m2 :: ms', fuel, rest, _, hfuel, hms => by
    obtain ⟨hk, hv⟩ := hms (k, v) (by simp)
    obtain ⟨f, rfl⟩ : ∃ f, fuel = f + 1 := ⟨fuel - 1, by simp at hfuel; omega⟩
    have ih := parseMembers_flat (m2 :: ms') f rest (by simp)
      (by simp at hfuel ⊢; omega)
      (fun m hm => hms m (by simp at hm ⊢; tauto))
    obtain ⟨t2, ht2⟩ := dumpsMembers_head m2.1 m2.2 ms'
    have hshape : dumpsMembers ((k, v) :: m2 :: ms') ++ 125 :: rest
        = 34 :: ((k.map escChar).flatten
            ++ 34 :: (58 :: (dumps v ++ 44 :: (dumpsMembers (m2 :: ms') ++ 125 :: rest)))) := by
      simp [dumpsMembers, dumpsStr]
    rw [hshape, parseMembers_step]
    rw [parseJString_escape k hk (58 :: (dumps v ++ 44 :: (dumpsMembers (m2 :: ms') ++ 125 :: rest)))]
    simp only [Option.some_bind]
    rw [skipWs_cons 58 _ (by decide)]
    simp only
    rw [parseValue_flat f v (44 :: (dumpsMembers (m2 :: ms') ++ 125 :: rest)) hv
      (by intro r0 h0; simp at h0; omega)]
    simp only [Option.some_bind]
    rw [skipWs_cons 44 _ (by decide)]
    simp only
    have hsk : skipWs (dumpsMembers (m2 :: ms') ++ 125 :: rest)
        = dumpsMembers (m2 :: ms') ++ 125 :: rest := by
      rcases m2 with ⟨k2, v2⟩
      obtain ⟨t3, ht3⟩ := dumpsMembers_head k2 v2 ms'
      rw [ht3, List.cons_append, skipWs_cons 34 _ (by decide)]
    rw [hsk, ih]
    rfl

/-- Parsing the serialization of a non-empty flat object yields it back. -/
theorem parseValue_objFlat (ms : List (List Nat × PyJson)) (fuel : Nat) (rest : List Nat)
    (hne : ms ≠ []) (hfuel : ms.length < fuel)
    (hms : ∀ m ∈ ms, ValidStr m.1 ∧ FlatVal m.2) :
    parseValue (fuel + 1) (dumps (.obj ms) ++ rest) = some (.obj ms, rest) := by
  obtain ⟨f, rfl⟩ : ∃ f, fuel = f + 1 := ⟨fuel - 1, by omega⟩
  have hshape : dumps (.obj ms) ++ rest = 123 :: (dumpsMembers ms ++ 125 :: rest) := by
    simp [dumps]
  rw [hshape]
  simp only [parseValue]
  rw [skipWs_cons 123 _ (by decide)]
  simp only
  simp only [if_true]
  obtain ⟨⟨k, v⟩, tail, rfl⟩ : ∃ m tail, ms = m :: tail := by
    cases ms with
    | nil => exact absurd rfl hne
    | cons m tail => exact ⟨m, tail, rfl⟩
  obtain ⟨t, ht⟩ := dumpsMembers_head k v tail
  rw [ht, List.cons_append, skipWs_cons 34 _ (by decide)]
  have hmem := parseMembers_flat ((k, v) :: tail) f rest (by simp)
    (by simp at hfuel ⊢; omega) hms
  rw [ht, List.cons_append] at hmem
  rw [if_neg (by omega : ¬ (123:Nat) = 34)]
  simp only
  rw [hmem]
  rfl

/-- `json.loads` of the compact serialization of a non-empty flat object
returns exactly that object. -/
theorem jsonLoadsStr_dumps_objFlat (ms : List (List Nat × PyJson)) (hne : ms ≠ [])
    (hms : ∀ m ∈ ms, ValidStr m.1 ∧ FlatVal m.2) :
    jsonLoadsStr (dumps (.obj ms)) = .ok (.obj ms) := by
  unfold jsonLoadsStr
  have hlen : ms.length < (dumps (.obj ms)).length := by
    have h1 := dumpsMembers_length ms
    simp only [dumps, List.length_cons, List.length_append]
    omega
  have hp : parseValue ((dumps (.obj ms)).length + 1) (dumps (.obj ms)) = some (.obj ms, []) := by
    have := parseValue_objFlat ms (dumps (.obj ms)).length [] hne hlen hms
    simpa using this
  rw [hp]
  rfl

/-- `json.loads` on the UTF-8 bytes of such a serialization. -/
theorem jsonLoadsBytes_dumps_objFlat (ms : List (List Nat × PyJson)) (hne : ms ≠ [])
    (hms : ∀ m ∈ ms, ValidStr m.1 ∧ FlatVal m.2) :
    jsonLoadsBytes (dumps (.obj ms)) = .ok (.obj ms) := by
  unfold jsonLoadsBytes
  rw [utf8Decode_ascii (dumps (.obj ms)) (dumps_ascii (.obj ms))]
  simp only [Except.bind]
  exact jsonLoadsStr_dumps_objFlat ms hne hms

/-! ## The HS256 pipeline -/

/-- `Except.bind` on a success. -/
theorem pyBind_ok {α β : Type} (a : α) (f : α → Except PyErr β) :
    (Except.ok a : Except PyErr α).bind f = f a := rfl

/-- `Except.map` on a success. -/
theorem pyMap_ok {α β : Type} (a : α) (f : α → β) :
    (Except.ok a : Except PyErr α).map f = .ok (f a) := rfl

/-- Big-endian word serialization emits bytes. -/
theorem be32_lt_256 (x : Nat) : ∀ b ∈ be32 x, b < 256 := by
  intro b hb
  simp only [be32, List.mem_cons, List.not_mem_nil, or_false] at hb
  rcases hb with rfl | rfl | rfl | rfl <;> omega

/-- A SHA-256 digest is a byte list. -/
theorem sha256_lt_256 (msg : List Nat) : ∀ b ∈ sha256 msg, b < 256 := by
  intro b hb
  simp only [sha256, List.mem_append] at hb
  rcases hb with ((((((h | h) | h) | h) | h) | h) | h) | h <;> exact be32_lt_256 _ b h

/-- An HMAC-SHA-256 digest is a byte list. -/
theorem hmacSha256_lt_256 (key msg : List Nat) : ∀ b ∈ hmacSha256 key msg, b < 256 := by
  intro b hb
  simp only [hmacSha256] at hb
  exact sha256_lt_256 _ b hb

/-- `_hmac_sha256` on ASCII strings is the plain HMAC of their code
points. -/
theorem hmac_sha256_str_ascii (secret msg : List Nat)
    (h1 : ∀ c ∈ secret, c < 128) (h2 : ∀ c ∈ msg, c < 128) :
    hmac_sha256_str secret msg = .ok (hmacSha256 secret msg) := by
  unfold hmac_sha256_str
  rw [pyEncodeUtf8_ascii secret h1, pyBind_ok, pyEncodeUtf8_ascii msg h2, pyMap_ok]

/-- The `header.payload` signing input over encoded byte segments is
ASCII. -/
theorem signing_input_ascii (hb pb : List Nat)
    (h1 : ∀ b ∈ hb, b < 256) (h2 : ∀ b ∈ pb, b < 256) :
    ∀ c ∈ urlsafe_b64encode hb ++ 46 :: urlsafe_b64encode pb, c < 128 := by
  intro c hc
  simp only [List.mem_append, List.mem_cons] at hc
  rcases hc with h | rfl | h
  · exact (urlsafe_b64encode_ascii_nodot hb h1 c h).1
  · omega
  · exact (urlsafe_b64encode_ascii_nodot pb h2 c h).1

/-- `_encode_jwt` in HS256 mode: the three dot-joined segments, with the
signature the HMAC of `header.payload` under the secret. -/
theorem encode_jwt_hs256 (j : PyJson) (secret : List Nat)
    (hsec : ∀ c ∈ secret, c < 128) (pk : Option RSAPrivateKey) :
    encode_jwt j secret (pystr "HS256") pk =
      .ok (urlsafe_b64encode (dumps (headerJson "HS256")) ++ 46 :: urlsafe_b64encode (dumps j)
        ++ 46 :: urlsafe_b64encode (hmacSha256 secret
            (urlsafe_b64encode (dumps (headerJson "HS256"))
              ++ 46 :: urlsafe_b64encode (dumps j)))) := by
  unfold encode_jwt
  rw [if_pos rfl, pyEncodeUtf8_ascii _ (dumps_ascii (headerJson "HS256")), pyBind_ok]
  rw [pyEncodeUtf8_ascii _ (dumps_ascii j), pyBind_ok]
  dsimp only
  rw [hmac_sha256_str_ascii secret _ hsec
    (signing_input_ascii _ _
      (fun b hbm => by have := dumps_ascii (headerJson "HS256") b hbm; omega)
      (fun b hbm => by have := dumps_ascii j b hbm; omega))]
  rw [pyMap_ok]

/-- An `Except.map` that succeeded came from a success. -/
theorem pyMap_eq_ok {α β : Type} (e : Except PyErr α) (f : α → β) (b : β)
    (h : e.map f = .ok b) : ∃ a, e = .ok a ∧ b = f a := by
  cases e with
  | ok a =>
    have h2 : (Except.ok (f a) : Except PyErr β) = .ok b := h
    injection h2 with h3
    exact ⟨a, rfl, h3.symm⟩
  | error err => simp [Except.map] at h

/-- Serialized JSON consists of bytes. -/
theorem dumps_lt_256 (j : PyJson) : ∀ b ∈ dumps j, b < 256 := by
  intro b hb
  have := dumps_ascii j b hb
  omega

/-- Encoded base64url segments contain no dot. -/
theorem urlsafe_b64encode_nodot (bs : List Nat) (h : ∀ b ∈ bs, b < 256) :
    NoDot (urlsafe_b64encode bs) :=
  fun hmem => (urlsafe_b64encode_ascii_nodot bs h 46 hmem).2 rfl

/-- `hmac.compare_digest` on an ASCII string and itself. -/
theorem compare_digest_self (a : List Nat) (h : ∀ c ∈ a, c < 128) :
    compare_digest a a = .ok true := by
  unfold compare_digest
  rw [if_pos]
  · simp
  · rw [Bool.and_eq_true]
    constructor <;> (rw [List.all_eq_true]; intro c hc; simpa using h c hc)

/-- A successful `_hmac_sha256` digest consists of bytes. -/
theorem hmac_sha256_str_ok_bytes (s m d : List Nat) (h : hmac_sha256_str s m = .ok d) :
    ∀ b ∈ d, b < 256 := by
  cases hs : pyEncodeUtf8 s with
  | error e => simp [hmac_sha256_str, hs, Except.bind] at h
  | ok k =>
    cases hm : pyEncodeUtf8 m with
    | error e => simp [hmac_sha256_str, hs, hm, Except.bind, Except.map] at h
    | ok mb =>
      have hde : d = hmacSha256 k mb := by
        simp [hmac_sha256_str, hs, hm, Except.bind, Except.map] at h
        exact h.symm
      subst hde
      exact hmacSha256_lt_256 k mb

/-- `_encode_jwt` in HS256 mode for an arbitrary secret: on signing
success, the three dot-joined segments. -/
theorem encode_jwt_hs256_general (j : PyJson) (secret : List Nat) (pk : Option RSAPrivateKey) :
    encode_jwt j secret (pystr "HS256") pk =
      (hmac_sha256_str secret
          (urlsafe_b64encode (dumps (headerJson "HS256")) ++ 46 :: urlsafe_b64encode (dumps j))).map
        (fun digest =>
          urlsafe_b64encode (dumps (headerJson "HS256")) ++ 46 :: urlsafe_b64encode (dumps j)
            ++ 46 :: urlsafe_b64encode digest) := by
  unfold encode_jwt
  rw [if_pos rfl, pyEncodeUtf8_ascii _ (dumps_ascii (headerJson "HS256")), pyBind_ok]
  rw [pyEncodeUtf8_ascii _ (dumps_ascii j), pyBind_ok]

/-- `_decode_jwt` of a minted HS256 token reaches the payload phase: the
recomputed HMAC matches the embedded one by construction. -/
theorem decode_jwt_hs256_minted (pb : List Nat) (hpb : ∀ b ∈ pb, b < 256)
    (secret d : List Nat)
    (hd : hmac_sha256_str secret
        (urlsafe_b64encode (dumps (headerJson "HS256")) ++ 46 :: urlsafe_b64encode pb) = .ok d)
    (pub : Option RSAPublicKey) (now : ℚ) :
    decode_jwt
      (urlsafe_b64encode (dumps (headerJson "HS256")) ++ 46 :: urlsafe_b64encode pb
        ++ 46 :: urlsafe_b64encode d)
      secret (pystr "HS256") pub now
      = decodePayloadPhase (urlsafe_b64encode pb) now := by
  have hdb := hmac_sha256_str_ok_bytes _ _ _ hd
  show decode_jwt
      (urlsafe_b64encode (dumps (headerJson "HS256")) ++ 46 :: (urlsafe_b64encode pb
        ++ 46 :: urlsafe_b64encode d))
      secret (pystr "HS256") pub now
      = decodePayloadPhase (urlsafe_b64encode pb) now
  unfold decode_jwt
  rw [splitOnDot_token _ _ _ (urlsafe_b64encode_nodot _ (dumps_lt_256 _))
    (urlsafe_b64encode_nodot _ hpb) (urlsafe_b64encode_nodot _ hdb)]
  simp only [if_true]
  rw [hd, pyBind_ok]
  rw [compare_digest_self _ (fun c hc => (urlsafe_b64encode_ascii_nodot _ hdb c hc).1), pyBind_ok]
  rw [if_pos rfl]

/-- The payload phase on the encoding of a flat object: base64url and
JSON round-trip, leaving exactly the `exp` check. -/
theorem decodePayloadPhase_objFlat (ms : List (List Nat × PyJson)) (hne : ms ≠ [])
    (hms : ∀ m ∈ ms, ValidStr m.1 ∧ FlatVal m.2) (now : ℚ) :
    decodePayloadPhase (urlsafe_b64encode (dumps (.obj ms))) now =
      (match dictGet ms (pystr "exp") with
       | none => .ok (.obj ms)
       | some .null => .ok (.obj ms)
       | some expv =>
         (pyFloat expv).bind (fun x =>
           if now > x then .error (.tokenError .expired) else .ok (.obj ms))) := by
  unfold decodePayloadPhase
  rw [urlsafe_b64_roundtrip _ (dumps_lt_256 _), pyBind_ok, jsonLoadsBytes_dumps_objFlat ms hne hms]

/-- The members of a minted token payload are flat with valid keys. -/
theorem tokenPayload_members (subject role : List Nat) (hsub : ValidStr subject)
    (hrole : ValidStr role) (typ : String) (htyp : ValidStr (pystr typ)) (now expire : ℚ) :
    ∀ m ∈ [(pystr "sub", PyJson.str subject), (pystr "role", PyJson.str role),
        (pystr "type", PyJson.str (pystr typ)),
        (pystr "iat", PyJson.num (pyIntTrunc now)), (pystr "exp", PyJson.num (pyIntTrunc expire))],
      ValidStr m.1 ∧ FlatVal m.2 := by
  intro m hm
  simp only [List.mem_cons, List.not_mem_nil, or_false] at hm
  rcases hm with rfl | rfl | rfl | rfl | rfl
  · exact ⟨(by decide : ValidStr (pystr "sub")), .inl ⟨subject, rfl, hsub⟩⟩
  · exact ⟨(by decide : ValidStr (pystr "role")), .inl ⟨role, rfl, hrole⟩⟩
  · exact ⟨(by decide : ValidStr (pystr "type")), .inl ⟨pystr typ, rfl, htyp⟩⟩
  · exact ⟨(by decide : ValidStr (pystr "iat")), .inr ⟨_, rfl⟩⟩
  · exact ⟨(by decide : ValidStr (pystr "exp")), .inr ⟨_, rfl⟩⟩

/-- In HS256 mode (more precisely: whenever RS256 is not configured) the
key material is the configured secret and algorithm, and no file is
read. -/
theorem get_secret_not_rs256 (lib : CryptoBackend) (fs : FS) (settings : Settings)
    (halg : ¬ settings.jwt_algorithm = pystr "RS256") :
    get_secret_and_algorithm lib fs settings =
      (.ok ⟨settings.jwt_secret, settings.jwt_algorithm, none, none⟩, []) := by
  unfold get_secret_and_algorithm
  rw [if_neg halg]

/-- Truncation toward zero stays within one of its argument, above. -/
theorem pyIntTrunc_lt_add_one (x : ℚ) : (pyIntTrunc x : ℚ) < x + 1 := by
  unfold pyIntTrunc
  split_ifs with h
  · exact lt_of_le_of_lt (Int.floor_le x) (by linarith)
  · have hc : -⌊-x⌋ = ⌈x⌉ := by rw [Int.floor_neg]; omega
    rw [hc]
    exact Int.ceil_lt_add_one x

/-- Truncation toward zero stays within one of its argument, below. -/
theorem pyIntTrunc_gt_sub_one (x : ℚ) : x - 1 < (pyIntTrunc x : ℚ) := by
  unfold pyIntTrunc
  split_ifs with h
  · exact Int.sub_one_lt_floor x
  · have hc : -⌊-x⌋ = ⌈x⌉ := by rw [Int.floor_neg]; omega
    rw [hc]
    have := Int.le_ceil x
    linarith

/-- Truncating after adding at least two advances strictly: the minted
`exp` exceeds the minted `iat` whenever the configured lifetime is at
least a minute. -/
theorem pyIntTrunc_add_lt (x k : ℚ) (hk : 2 ≤ k) : pyIntTrunc x < pyIntTrunc (x + k) := by
  have h1 : (pyIntTrunc x : ℚ) < x + 1 := pyIntTrunc_lt_add_one x
  have h2 : (x + k) - 1 < (pyIntTrunc (x + k) : ℚ) := pyIntTrunc_gt_sub_one (x + k)
  have h3 : (pyIntTrunc x : ℚ) < (pyIntTrunc (x + k) : ℚ) := by linarith
  exact_mod_cast h3

/-- Payload phase when the payload carries a numeric `exp`: exactly the
expiry comparison remains. -/
theorem decodePayloadPhase_objFlat_num (ms : List (List Nat × PyJson)) (hne : ms ≠ [])
    (hms : ∀ m ∈ ms, ValidStr m.1 ∧ FlatVal m.2) (e : Int)
    (hexp : dictGet ms (pystr "exp") = some (.num e)) (now : ℚ) :
    decodePayloadPhase (urlsafe_b64encode (dumps (.obj ms))) now =
      if now > (e : ℚ) then .error (.tokenError .expired) else .ok (.obj ms) := by
  rw [decodePayloadPhase_objFlat ms hne hms now, hexp]
  rfl

/-- Payload phase when the payload has no `exp` member: no expiry check
happens. -/
theorem decodePayloadPhase_objFlat_noexp (ms : List (List Nat × PyJson)) (hne : ms ≠ [])
    (hms : ∀ m ∈ ms, ValidStr m.1 ∧ FlatVal m.2)
    (hexp : dictGet ms (pystr "exp") = none) (now : ℚ) :
    decodePayloadPhase (urlsafe_b64encode (dumps (.obj ms))) now = .ok (.obj ms) := by
  rw [decodePayloadPhase_objFlat ms hne hms now, hexp]

/-- With HS256 configured and an ASCII secret, `create_access_token`
always succeeds. -/
theorem create_access_token_hs256_ok (lib : CryptoBackend) (fs : FS) (settings : Settings)
    (halg : settings.jwt_algorithm = pystr "HS256")
    (hsec : ∀ c ∈ settings.jwt_secret, c < 128)
    (now : ℚ) (subject role : List Nat) :
    ∃ t, (create_access_token lib fs settings now subject role).1 = .ok t := by
  unfold create_access_token
  dsimp only
  rw [get_secret_not_rs256 lib fs settings (by rw [halg]; decide)]
  dsimp only
  rw [pyBind_ok]
  dsimp only
  rw [halg, encode_jwt_hs256 _ _ hsec]
  exact ⟨_, rfl⟩

/-- Decoding a token minted by `create_access_token` in HS256 mode, at
or before its expiry, yields exactly the minted payload object. -/
theorem decode_of_create_access_hs256 (lib : CryptoBackend) (fs : FS) (settings : Settings)
    (halg : settings.jwt_algorithm = pystr "HS256")
    (subject role : List Nat) (hsub : ValidStr subject) (hrole : ValidStr role)
    (now now2 : ℚ) (token : List Nat)
    (htok : (create_access_token lib fs settings now subject role).1 = .ok token)
    (hfresh : now2 ≤ (pyIntTrunc (now + 60 * (settings.jwt_exp_minutes : ℚ)) : ℚ)) :
    (decode_token lib fs settings now2 token).1
      = .ok (.obj [(pystr "sub", PyJson.str subject), (pystr "role", PyJson.str role),
          (pystr "type", PyJson.str (pystr "access")),
          (pystr "iat", PyJson.num (pyIntTrunc now)),
          (pystr "exp", PyJson.num (pyIntTrunc (now + 60 * (settings.jwt_exp_minutes : ℚ))))]) := by
  have hns : ¬ settings.jwt_algorithm = pystr "RS256" := by rw [halg]; decide
  unfold create_access_token at htok
  dsimp only at htok
  rw [get_secret_not_rs256 lib fs settings hns] at htok
  dsimp only at htok
  rw [pyBind_ok] at htok
  dsimp only at htok
  rw [halg] at htok
  rw [encode_jwt_hs256_general] at htok
  obtain ⟨dg, hdg, htk⟩ := pyMap_eq_ok _ _ _ htok
  subst htk
  unfold decode_token
  dsimp only
  rw [get_secret_not_rs256 lib fs settings hns]
  dsimp only
  rw [pyBind_ok]
  dsimp only
  rw [halg]
  rw [decode_jwt_hs256_minted _ (dumps_lt_256 _) _ _ hdg]
  rw [show tokenPayload subject role "access" now (now + 60 * (settings.jwt_exp_minutes : ℚ)) =
      PyJson.obj [(pystr "sub", PyJson.str subject), (pystr "role", PyJson.str role),
        (pystr "type", PyJson.str (pystr "access")),
        (pystr "iat", PyJson.num (pyIntTrunc now)),
        (pystr "exp", PyJson.num (pyIntTrunc (now + 60 * (settings.jwt_exp_minutes : ℚ))))]
    from rfl]
  rw [decodePayloadPhase_objFlat_num _ (List.cons_ne_nil _ _)
    (tokenPayload_members subject role hsub hrole "access" (by decide) now
      (now + 60 * (settings.jwt_exp_minutes : ℚ)))
    (pyIntTrunc (now + 60 * (settings.jwt_exp_minutes : ℚ))) rfl now2]
  rw [if_neg (not_lt.mpr hfresh)]

/-- **C1.** For every subject string and role string, decoding a freshly
minted access token round-trips: with HS256 configured, a positive
configured lifetime, and the decode performed at or before the expiry,
`decode_token` on the token `create_access_token` returned yields a
payload object whose `sub` is the subject, whose `role` is the role,
whose `type` is `"access"`, and whose `exp` strictly exceeds its
`iat`. -/
theorem claim_C1_access_roundtrip (lib : CryptoBackend) (fs : FS) (settings : Settings)
    (halg : settings.jwt_algorithm = pystr "HS256")
    (hmin : 1 ≤ settings.jwt_exp_minutes)
    (subject role : List Nat) (hsub : ValidStr subject) (hrole : ValidStr role)
    (now now2 : ℚ) (token : List Nat)
    (htok : (create_access_token lib fs settings now subject role).1 = .ok token)
    (hfresh : now2 ≤ (pyIntTrunc (now + 60 * (settings.jwt_exp_minutes : ℚ)) : ℚ)) :
    ∃ ms, (decode_token lib fs settings now2 token).1 = .ok (.obj ms) ∧
      dictGet ms (pystr "sub") = some (.str subject) ∧
      dictGet ms (pystr "role") = some (.str role) ∧
      dictGet ms (pystr "type") = some (.str (pystr "access")) ∧
      ∃ iat exp2 : Int, dictGet ms (pystr "iat") = some (.num iat) ∧
        dictGet ms (pystr "exp") = some (.num exp2) ∧ iat < exp2 := by
  refine ⟨[(pystr "sub", PyJson.str subject), (pystr "role", PyJson.str role),
      (pystr "type", PyJson.str (pystr "access")),
      (pystr "iat", PyJson.num (pyIntTrunc now)),
      (pystr "exp", PyJson.num (pyIntTrunc (now + 60 * (settings.jwt_exp_minutes : ℚ))))],
    decode_of_create_access_hs256 lib fs settings halg subject role hsub hrole
      now now2 token htok hfresh,
    rfl, rfl, rfl,
    pyIntTrunc now, pyIntTrunc (now + 60 * (settings.jwt_exp_minutes : ℚ)), rfl, rfl,
    pyIntTrunc_add_lt now _ (by
      have hm : (1 : ℚ) ≤ (settings.jwt_exp_minutes : ℚ) := by exact_mod_cast hmin
      linarith)⟩

/-- **C1, witnessed.** A concrete access token minted at time 1000 for
`alice`/`admin` under the default HS256 settings decodes at time 2000 to
the expected payload. -/
theorem claim_C1_access_roundtrip_witness :
    ∃ token ms,
      (create_access_token emptyBackend emptyFS hs256Settings 1000 (pystr "alice") (pystr "admin")).1
        = .ok token ∧
      (decode_token emptyBackend emptyFS hs256Settings 2000 token).1 = .ok (.obj ms) ∧
      dictGet ms (pystr "sub") = some (.str (pystr "alice")) ∧
      dictGet ms (pystr "role") = some (.str (pystr "admin")) ∧
      dictGet ms (pystr "type") = some (.str (pystr "access")) ∧
      ∃ iat exp2 : Int, dictGet ms (pystr "iat") = some (.num iat) ∧
        dictGet ms (pystr "exp") = some (.num exp2) ∧ iat < exp2 := by
  obtain ⟨token, htok⟩ := create_access_token_hs256_ok emptyBackend emptyFS hs256Settings
    rfl (by decide) 1000 (pystr "alice") (pystr "admin")
  obtain ⟨ms, h1, h2, h3, h4, h5⟩ := claim_C1_access_roundtrip emptyBackend emptyFS hs256Settings
    rfl (by decide) (pystr "alice") (pystr "admin") (by decide) (by decide)
    1000 2000 token htok
    (by show (2000 : ℚ) ≤ ((pyIntTrunc (1000 + 60 * ((60 : Int) : ℚ)) : Int) : ℚ)
        norm_num [pyIntTrunc])
  exact ⟨token, ms, htok, h1, h2, h3, h4, h5⟩

/-- `hmac.compare_digest` on ASCII strings is plain equality. -/
theorem compare_digest_ascii (a b : List Nat) (ha : ∀ c ∈ a, c < 128) (hb : ∀ c ∈ b, c < 128) :
    compare_digest a b = .ok (a == b) := by
  unfold compare_digest
  rw [if_pos]
  rw [Bool.and_eq_true]
  constructor <;> (rw [List.all_eq_true]; intro c hc; simp only [decide_eq_true_eq])
  · exact ha c hc
  · exact hb c hc

/-- A SHA-256 digest is never empty. -/
theorem sha256_ne_nil (msg : List Nat) : sha256 msg ≠ [] := by
  unfold sha256 be32
  simp

/-- Encoding a non-empty byte list yields a non-empty segment. -/
theorem urlsafe_b64encode_ne_nil (bs : List Nat) (hne : bs ≠ []) (h : ∀ b ∈ bs, b < 256) :
    urlsafe_b64encode bs ≠ [] := by
  cases bs with
  | nil => exact absurd rfl hne
  | cons b0 rest => exact rstripEq_encode_ne_nil b0 rest h

/-- **C2.** A token whose payload segment no longer matches its signature
segment — in HS256 mode: the base64url-encoded recomputed HMAC of
`header.payload` differs from the presented signature — is rejected with
exactly `TokenError("Token signature invalid")`, whatever the payload
segment contains: the signature comparison precedes the payload decode
and the expiry check, so no payload- or expiry-classified error can
surface and the token is never accepted. -/
theorem claim_C2_tampered_signatureInvalid (lib : CryptoBackend) (fs : FS) (settings : Settings)
    (halg : settings.jwt_algorithm = pystr "HS256")
    (h p s : List Nat) (hh : NoDot h) (hp : NoDot p) (hs : NoDot s)
    (hsAscii : ∀ c ∈ s, c < 128)
    (d : List Nat)
    (hd : hmac_sha256_str settings.jwt_secret (h ++ 46 :: p) = .ok d)
    (hmismatch : urlsafe_b64encode d ≠ s)
    (now : ℚ) :
    (decode_token lib fs settings now (h ++ 46 :: (p ++ 46 :: s))).1
      = .error (.tokenError .signatureInvalid) := by
  have hdb := hmac_sha256_str_ok_bytes _ _ _ hd
  have hns : ¬ settings.jwt_algorithm = pystr "RS256" := by rw [halg]; decide
  unfold decode_token
  dsimp only
  rw [get_secret_not_rs256 lib fs settings hns]
  dsimp only
  rw [pyBind_ok]
  dsimp only
  rw [halg]
  unfold decode_jwt
  rw [splitOnDot_token h p s hh hp hs]
  simp only [if_true]
  rw [hd, pyBind_ok]
  rw [compare_digest_ascii (urlsafe_b64encode d) s
    (fun c hc => (urlsafe_b64encode_ascii_nodot _ hdb c hc).1) hsAscii, pyBind_ok]
  rw [beq_eq_false_iff_ne.mpr hmismatch]
  rfl

/-- **C2, witnessed.** The token `x.y.` (an empty signature segment, so
certainly not the HMAC of `x.y`) is rejected as `signatureInvalid` under
the default settings. -/
theorem claim_C2_tampered_signatureInvalid_witness :
    (decode_token emptyBackend emptyFS hs256Settings 0
        (pystr "x" ++ 46 :: (pystr "y" ++ 46 :: ([] : List Nat)))).1
      = .error (.tokenError .signatureInvalid) := by
  have hd := hmac_sha256_str_ascii testSecret (pystr "x" ++ 46 :: pystr "y")
    (by decide) (by decide)
  exact claim_C2_tampered_signatureInvalid emptyBackend emptyFS hs256Settings rfl
    (pystr "x") (pystr "y") [] (by unfold NoDot; decide) (by unfold NoDot; decide)
    (by unfold NoDot; decide) (by decide)
    _ hd
    (urlsafe_b64encode_ne_nil _ (sha256_ne_nil _) (hmacSha256_lt_256 _ _))
    0

/-- `_decode_jwt` on any HS256 token whose signature segment is the
encoded recomputed HMAC reaches the payload phase, whatever the header
segment holds. -/
theorem decode_jwt_hs256_validsig (h p : List Nat) (hh : NoDot h) (hp : NoDot p)
    (secret d : List Nat) (hd : hmac_sha256_str secret (h ++ 46 :: p) = .ok d)
    (pub : Option RSAPublicKey) (now : ℚ) :
    decode_jwt (h ++ 46 :: (p ++ 46 :: urlsafe_b64encode d)) secret (pystr "HS256") pub now
      = decodePayloadPhase p now := by
  have hdb := hmac_sha256_str_ok_bytes _ _ _ hd
  unfold decode_jwt
  rw [splitOnDot_token h p _ hh hp (urlsafe_b64encode_nodot _ hdb)]
  simp only [if_true]
  rw [hd, pyBind_ok]
  rw [compare_digest_self _ (fun c hc => (urlsafe_b64encode_ascii_nodot _ hdb c hc).1), pyBind_ok]
  rw [if_pos rfl]

/-- **C3.** On a validly signed HS256 token whose payload is a flat
object: if the payload carries a numeric `exp` claim, decoding fails
with `TokenError("Token expired")` exactly when the current time is
strictly greater than that value — and returns the payload otherwise;
if the payload has no `exp` member at all, no expiry failure occurs and
the payload is returned. -/
theorem claim_C3_expiry_boundary (lib : CryptoBackend) (fs : FS) (settings : Settings)
    (halg : settings.jwt_algorithm = pystr "HS256")
    (h : List Nat) (hh : NoDot h)
    (ms : List (List Nat × PyJson)) (hne : ms ≠ [])
    (hms : ∀ m ∈ ms, ValidStr m.1 ∧ FlatVal m.2)
    (d : List Nat)
    (hd : hmac_sha256_str settings.jwt_secret
        (h ++ 46 :: urlsafe_b64encode (dumps (.obj ms))) = .ok d)
    (now : ℚ) :
    (∀ e : Int, dictGet ms (pystr "exp") = some (.num e) →
      (decode_token lib fs settings now
          (h ++ 46 :: (urlsafe_b64encode (dumps (.obj ms)) ++ 46 :: urlsafe_b64encode d))).1
        = (if now > (e : ℚ) then .error (.tokenError .expired) else .ok (.obj ms)))
    ∧ (dictGet ms (pystr "exp") = none →
      (decode_token lib fs settings now
          (h ++ 46 :: (urlsafe_b64encode (dumps (.obj ms)) ++ 46 :: urlsafe_b64encode d))).1
        = .ok (.obj ms)) := by
  have hns : ¬ settings.jwt_algorithm = pystr "RS256" := by rw [halg]; decide
  have hbase : (decode_token lib fs settings now
      (h ++ 46 :: (urlsafe_b64encode (dumps (.obj ms)) ++ 46 :: urlsafe_b64encode d))).1
      = decodePayloadPhase (urlsafe_b64encode (dumps (.obj ms))) now := by
    unfold decode_token
    dsimp only
    rw [get_secret_not_rs256 lib fs settings hns]
    dsimp only
    rw [pyBind_ok]
    dsimp only
    rw [halg]
    rw [decode_jwt_hs256_validsig h _ hh (urlsafe_b64encode_nodot _ (dumps_lt_256 _)) _ d hd]
  constructor
  · intro e hexp
    rw [hbase, decodePayloadPhase_objFlat_num ms hne hms e hexp now]
  · intro hexp
    rw [hbase, decodePayloadPhase_objFlat_noexp ms hne hms hexp now]

/-- **C3, witnessed.** A validly signed token with payload
`{"exp": 10}` decodes successfully at time 5 and fails as expired at
time 11; one with payload `{"iat": 3}` (no `exp`) decodes successfully
at any time. -/
theorem claim_C3_expiry_boundary_witness :
    (decode_token emptyBackend emptyFS hs256Settings 5
        (urlsafe_b64encode (dumps (headerJson "HS256"))
          ++ 46 :: (urlsafe_b64encode (dumps (.obj [(pystr "exp", PyJson.num 10)]))
          ++ 46 :: urlsafe_b64encode (hmacSha256 testSecret
              (urlsafe_b64encode (dumps (headerJson "HS256"))
                ++ 46 :: urlsafe_b64encode (dumps (.obj [(pystr "exp", PyJson.num 10)]))))))).1
      = .ok (.obj [(pystr "exp", PyJson.num 10)])
    ∧ (decode_token emptyBackend emptyFS hs256Settings 11
        (urlsafe_b64encode (dumps (headerJson "HS256"))
          ++ 46 :: (urlsafe_b64encode (dumps (.obj [(pystr "exp", PyJson.num 10)]))
          ++ 46 :: urlsafe_b64encode (hmacSha256 testSecret
              (urlsafe_b64encode (dumps (headerJson "HS256"))
                ++ 46 :: urlsafe_b64encode (dumps (.obj [(pystr "exp", PyJson.num 10)]))))))).1
      = .error (.tokenError .expired)
    ∧ (decode_token emptyBackend emptyFS hs256Settings 1000000
        (urlsafe_b64encode (dumps (headerJson "HS256"))
          ++ 46 :: (urlsafe_b64encode (dumps (.obj [(pystr "iat", PyJson.num 3)]))
          ++ 46 :: urlsafe_b64encode (hmacSha256 testSecret
              (urlsafe_b64encode (dumps (headerJson "HS256"))
                ++ 46 :: urlsafe_b64encode (dumps (.obj [(pystr "iat", PyJson.num 3)]))))))).1
      = .ok (.obj [(pystr "iat", PyJson.num 3)]) := by
  have hmsE : ∀ m ∈ [(pystr "exp", PyJson.num 10)], ValidStr m.1 ∧ FlatVal m.2 := by
    intro m hm
    simp only [List.mem_cons, List.not_mem_nil, or_false] at hm
    subst hm
    exact ⟨(by decide : ValidStr (pystr "exp")), .inr ⟨_, rfl⟩⟩
  have hmsI : ∀ m ∈ [(pystr "iat", PyJson.num 3)], ValidStr m.1 ∧ FlatVal m.2 := by
    intro m hm
    simp only [List.mem_cons, List.not_mem_nil, or_false] at hm
    subst hm
    exact ⟨(by decide : ValidStr (pystr "iat")), .inr ⟨_, rfl⟩⟩
  have hdE := hmac_sha256_str_ascii testSecret
    (urlsafe_b64encode (dumps (headerJson "HS256"))
      ++ 46 :: urlsafe_b64encode (dumps (.obj [(pystr "exp", PyJson.num 10)])))
    (by decide) (signing_input_ascii _ _ (dumps_lt_256 _) (dumps_lt_256 _))
  have hdI := hmac_sha256_str_ascii testSecret
    (urlsafe_b64encode (dumps (headerJson "HS256"))
      ++ 46 :: urlsafe_b64encode (dumps (.obj [(pystr "iat", PyJson.num 3)])))
    (by decide) (signing_input_ascii _ _ (dumps_lt_256 _) (dumps_lt_256 _))
  refine ⟨?_, ?_, ?_⟩
  · have hc := (claim_C3_expiry_boundary emptyBackend emptyFS hs256Settings rfl
      (urlsafe_b64encode (dumps (headerJson "HS256")))
      (urlsafe_b64encode_nodot _ (dumps_lt_256 _))
      [(pystr "exp", PyJson.num 10)] (List.cons_ne_nil _ _) hmsE _ hdE 5).1 10 rfl
    rw [hc, if_neg (by norm_num)]
  · have hc := (claim_C3_expiry_boundary emptyBackend emptyFS hs256Settings rfl
      (urlsafe_b64encode (dumps (headerJson "HS256")))
      (urlsafe_b64encode_nodot _ (dumps_lt_256 _))
      [(pystr "exp", PyJson.num 10)] (List.cons_ne_nil _ _) hmsE _ hdE 11).1 10 rfl
    rw [hc, if_pos (by norm_num)]
  · exact (claim_C3_expiry_boundary emptyBackend emptyFS hs256Settings rfl
      (urlsafe_b64encode (dumps (headerJson "HS256")))
      (urlsafe_b64encode_nodot _ (dumps_lt_256 _))
      [(pystr "iat", PyJson.num 3)] (List.cons_ne_nil _ _) hmsI _ hdI 1000000).2 rfl

/-- With HS256 configured and an ASCII secret, `create_refresh_token`
always succeeds. -/
theorem create_refresh_token_hs256_ok (lib : CryptoBackend) (fs : FS) (settings : Settings)
    (halg : settings.jwt_algorithm = pystr "HS256")
    (hsec : ∀ c ∈ settings.jwt_secret, c < 128)
    (now : ℚ) (subject role : List Nat) :
    ∃ t, (create_refresh_token lib fs settings now subject role).1 = .ok t := by
  unfold create_refresh_token
  dsimp only
  rw [get_secret_not_rs256 lib fs settings (by rw [halg]; decide)]
  dsimp only
  rw [pyBind_ok]
  dsimp only
  rw [halg, encode_jwt_hs256 _ _ hsec]
  exact ⟨_, rfl⟩

/-- Decoding a token minted by `create_refresh_token` in HS256 mode, at
or before its expiry, yields exactly the minted payload object. -/
theorem decode_of_create_refresh_hs256 (lib : CryptoBackend) (fs : FS) (settings : Settings)
    (halg : settings.jwt_algorithm = pystr "HS256")
    (subject role : List Nat) (hsub : ValidStr subject) (hrole : ValidStr role)
    (now now2 : ℚ) (token : List Nat)
    (htok : (create_refresh_token lib fs settings now subject role).1 = .ok token)
    (hfresh : now2 ≤ (pyIntTrunc (now + 86400 * (settings.jwt_refresh_exp_days : ℚ)) : ℚ)) :
    (decode_token lib fs settings now2 token).1
      = .ok (.obj [(pystr "sub", PyJson.str subject), (pystr "role", PyJson.str role),
          (pystr "type", PyJson.str (pystr "refresh")),
          (pystr "iat", PyJson.num (pyIntTrunc now)),
          (pystr "exp", PyJson.num (pyIntTrunc (now + 86400 * (settings.jwt_refresh_exp_days : ℚ))))]) := by
  have hns : ¬ settings.jwt_algorithm = pystr "RS256" := by rw [halg]; decide
  unfold create_refresh_token at htok
  dsimp only at htok
  rw [get_secret_not_rs256 lib fs settings hns] at htok
  dsimp only at htok
  rw [pyBind_ok] at htok
  dsimp only at htok
  rw [halg] at htok
  rw [encode_jwt_hs256_general] at htok
  obtain ⟨dg, hdg, htk⟩ := pyMap_eq_ok _ _ _ htok
  subst htk
  unfold decode_token
  dsimp only
  rw [get_secret_not_rs256 lib fs settings hns]
  dsimp only
  rw [pyBind_ok]
  dsimp only
  rw [halg]
  rw [decode_jwt_hs256_minted _ (dumps_lt_256 _) _ _ hdg]
  rw [show tokenPayload subject role "refresh" now
      (now + 86400 * (settings.jwt_refresh_exp_days : ℚ)) =
      PyJson.obj [(pystr "sub", PyJson.str subject), (pystr "role", PyJson.str role),
        (pystr "type", PyJson.str (pystr "refresh")),
        (pystr "iat", PyJson.num (pyIntTrunc now)),
        (pystr "exp", PyJson.num (pyIntTrunc (now + 86400 * (settings.jwt_refresh_exp_days : ℚ))))]
    from rfl]
  rw [decodePayloadPhase_objFlat_num _ (List.cons_ne_nil _ _)
    (tokenPayload_members subject role hsub hrole "refresh" (by decide) now
      (now + 86400 * (settings.jwt_refresh_exp_days : ℚ)))
    (pyIntTrunc (now + 86400 * (settings.jwt_refresh_exp_days : ℚ))) rfl now2]
  rw [if_neg (not_lt.mpr hfresh)]

/-- **C6.** A freshly minted *refresh* token presented before its expiry
is decoded successfully — its payload's `type` is `"refresh"` — and the
`get_current_user` prefix accepts it outright, returning the `sub`
claim: neither `_decode_jwt` nor the dependency ever consults the
`type` field. -/
theorem claim_C6_refresh_accepted (lib : CryptoBackend) (fs : FS) (settings : Settings)
    (halg : settings.jwt_algorithm = pystr "HS256")
    (subject role : List Nat) (hsub : ValidStr subject) (hrole : ValidStr role)
    (hsubne : subject ≠ [])
    (now now2 : ℚ) (token : List Nat)
    (htok : (create_refresh_token lib fs settings now subject role).1 = .ok token)
    (hfresh : now2 ≤ (pyIntTrunc (now + 86400 * (settings.jwt_refresh_exp_days : ℚ)) : ℚ)) :
    ∃ ms, (decode_token lib fs settings now2 token).1 = .ok (.obj ms) ∧
      dictGet ms (pystr "type") = some (.str (pystr "refresh")) ∧
      (get_current_user_auth lib fs settings now2 token).1 = .ok (.str subject) := by
  have hdec := decode_of_create_refresh_hs256 lib fs settings halg subject role hsub hrole
    now now2 token htok hfresh
  refine ⟨_, hdec, rfl, ?_⟩
  unfold get_current_user_auth
  dsimp only
  rw [hdec, pyBind_ok]
  dsimp only
  rw [show dictGet [(pystr "sub", PyJson.str subject), (pystr "role", PyJson.str role),
      (pystr "type", PyJson.str (pystr "refresh")),
      (pystr "iat", PyJson.num (pyIntTrunc now)),
      (pystr "exp", PyJson.num (pyIntTrunc (now + 86400 * (settings.jwt_refresh_exp_days : ℚ))))]
      (pystr "sub") = some (PyJson.str subject) from rfl]
  dsimp only
  rw [if_pos]
  show (!subject.isEmpty) = true
  simp [List.isEmpty_eq_false.mpr hsubne]

/-- **C6, witnessed.** A refresh token for `bob`/`viewer` minted at time 0
under default settings is decoded at time 100 and accepted by the
`get_current_user` prefix, which returns `bob`. -/
theorem claim_C6_refresh_accepted_witness :
    ∃ token ms,
      (create_refresh_token emptyBackend emptyFS hs256Settings 0 (pystr "bob") (pystr "viewer")).1
        = .ok token ∧
      (decode_token emptyBackend emptyFS hs256Settings 100 token).1 = .ok (.obj ms) ∧
      dictGet ms (pystr "type") = some (.str (pystr "refresh")) ∧
      (get_current_user_auth emptyBackend emptyFS hs256Settings 100 token).1
        = .ok (.str (pystr "bob")) := by
  obtain ⟨token, htok⟩ := create_refresh_token_hs256_ok emptyBackend emptyFS hs256Settings
    rfl (by decide) 0 (pystr "bob") (pystr "viewer")
  obtain ⟨ms, h1, h2, h3⟩ := claim_C6_refresh_accepted emptyBackend emptyFS hs256Settings
    rfl (pystr "bob") (pystr "viewer") (by decide) (by decide) (by decide)
    0 100 token htok
    (by show (100 : ℚ) ≤ ((pyIntTrunc (0 + 86400 * ((30 : Int) : ℚ)) : Int) : ℚ)
        norm_num [pyIntTrunc])
  exact ⟨token, ms, htok, h1, h2, h3⟩

/-- **C7.** The verifier never parses the header segment.  First: the
decode outcome depends on the header bytes only through the recomputed
HMAC of `header.payload` — two tokens sharing payload and signature
segments whose headers produce the same recomputed signature decode
identically.  Second: a token whose header names RS256 but whose
signature is a valid HS256 signature is verified with the *configured*
HS256 algorithm and reaches the payload phase. -/
theorem claim_C7_header_never_parsed (lib : CryptoBackend) (fs : FS) (settings : Settings)
    (halg : settings.jwt_algorithm = pystr "HS256")
    (h1 h2 p s : List Nat) (hh1 : NoDot h1) (hh2 : NoDot h2) (hp : NoDot p) (hs : NoDot s)
    (hmac_eq : hmac_sha256_str settings.jwt_secret (h1 ++ 46 :: p)
      = hmac_sha256_str settings.jwt_secret (h2 ++ 46 :: p))
    (now : ℚ) :
    (decode_token lib fs settings now (h1 ++ 46 :: (p ++ 46 :: s))).1
      = (decode_token lib fs settings now (h2 ++ 46 :: (p ++ 46 :: s))).1
    ∧ ∀ d, hmac_sha256_str settings.jwt_secret
        (urlsafe_b64encode (dumps (headerJson "RS256")) ++ 46 :: p) = .ok d →
      (decode_token lib fs settings now
          (urlsafe_b64encode (dumps (headerJson "RS256"))
            ++ 46 :: (p ++ 46 :: urlsafe_b64encode d))).1
        = decodePayloadPhase p now := by
  have hns : ¬ settings.jwt_algorithm = pystr "RS256" := by rw [halg]; decide
  constructor
  · unfold decode_token
    dsimp only
    rw [get_secret_not_rs256 lib fs settings hns]
    dsimp only
    simp only [pyBind_ok]
    rw [halg]
    unfold decode_jwt
    rw [splitOnDot_token h1 p s hh1 hp hs, splitOnDot_token h2 p s hh2 hp hs]
    simp only [if_true]
    rw [hmac_eq]
  · intro d hd
    unfold decode_token
    dsimp only
    rw [get_secret_not_rs256 lib fs settings hns]
    dsimp only
    rw [pyBind_ok]
    dsimp only
    rw [halg]
    exact decode_jwt_hs256_validsig _ p (urlsafe_b64encode_nodot _ (dumps_lt_256 _)) hp _ d hd
      none now

/-- **C7, witnessed.** A token carrying the RS256 header but a valid
HS256 signature over its segments is accepted under the configured
HS256, its payload `{"sub": "x"}` returned. -/
theorem claim_C7_header_never_parsed_witness :
    (decode_token emptyBackend emptyFS hs256Settings 0
        (pystr "h" ++ 46 :: (urlsafe_b64encode (dumps (.obj [(pystr "sub", PyJson.str (pystr "x"))]))
          ++ 46 :: ([] : List Nat)))).1
      = (decode_token emptyBackend emptyFS hs256Settings 0
        (pystr "h" ++ 46 :: (urlsafe_b64encode (dumps (.obj [(pystr "sub", PyJson.str (pystr "x"))]))
          ++ 46 :: ([] : List Nat)))).1
    ∧ (decode_token emptyBackend emptyFS hs256Settings 0
        (urlsafe_b64encode (dumps (headerJson "RS256"))
          ++ 46 :: (urlsafe_b64encode (dumps (.obj [(pystr "sub", PyJson.str (pystr "x"))]))
          ++ 46 :: urlsafe_b64encode (hmacSha256 testSecret
              (urlsafe_b64encode (dumps (headerJson "RS256"))
                ++ 46 :: urlsafe_b64encode (dumps (.obj [(pystr "sub", PyJson.str (pystr "x"))]))))))).1
      = .ok (.obj [(pystr "sub", PyJson.str (pystr "x"))]) := by
  have hmsS : ∀ m ∈ [(pystr "sub", PyJson.str (pystr "x"))], ValidStr m.1 ∧ FlatVal m.2 := by
    intro m hm
    simp only [List.mem_cons, List.not_mem_nil, or_false] at hm
    subst hm
    exact ⟨(by decide : ValidStr (pystr "sub")), .inl ⟨_, rfl, by decide⟩⟩
  have hd := hmac_sha256_str_ascii testSecret
    (urlsafe_b64encode (dumps (headerJson "RS256"))
      ++ 46 :: urlsafe_b64encode (dumps (.obj [(pystr "sub", PyJson.str (pystr "x"))])))
    (by decide) (signing_input_ascii _ _ (dumps_lt_256 _) (dumps_lt_256 _))
  have hc := claim_C7_header_never_parsed emptyBackend emptyFS hs256Settings rfl
    (pystr "h") (pystr "h")
    (urlsafe_b64encode (dumps (.obj [(pystr "sub", PyJson.str (pystr "x"))]))) []
    (by unfold NoDot; decide) (by unfold NoDot; decide)
    (urlsafe_b64encode_nodot _ (dumps_lt_256 _)) (by unfold NoDot; decide) rfl 0
  refine ⟨hc.1, ?_⟩
  rw [hc.2 _ hd]
  exact decodePayloadPhase_objFlat_noexp _ (List.cons_ne_nil _ _) hmsS rfl 0

/-- **C4, counterexample.** The token `a.a.<sig>` carries a genuinely
valid HS256 signature over `a.a`, yet its payload segment `a` cannot be
base64url-decoded: `binascii.Error` — a `ValueError`, not a
`TokenError` — escapes `decode_token`, leaving the advertised
authentication-failure taxonomy.  The spec's "fails with
`InvalidPayload`" holds only for JSON parse failures, not base64
failures. -/
theorem claim_C4_taxonomy_escape_counterexample :
    (decode_token emptyBackend emptyFS hs256Settings 0 c4Token).1
      = .error (.valueError .binascii)
    ∧ ¬ InTaxonomy (decode_token emptyBackend emptyFS hs256Settings 0 c4Token).1 := by
  have hd := hmac_sha256_str_ascii testSecret (pystr "a" ++ 46 :: pystr "a")
    (by decide) (by decide)
  have hdec : (decode_token emptyBackend emptyFS hs256Settings 0 c4Token).1
      = decodePayloadPhase (pystr "a") 0 := by
    have hshape : c4Token = pystr "a" ++ 46 :: (pystr "a"
        ++ 46 :: urlsafe_b64encode (hmacSha256 testSecret (pystr "a" ++ 46 :: pystr "a"))) := rfl
    rw [hshape]
    unfold decode_token
    dsimp only
    rw [get_secret_not_rs256 emptyBackend emptyFS hs256Settings (by decide)]
    dsimp only
    rw [pyBind_ok]
    dsimp only
    exact decode_jwt_hs256_validsig (pystr "a") (pystr "a")
      (by unfold NoDot; decide) (by unfold NoDot; decide) _ _ hd none 0
  have hval : decodePayloadPhase (pystr "a") 0 = Except.error (.valueError .binascii) := rfl
  refine ⟨by rw [hdec, hval], ?_⟩
  rw [hdec, hval]
  rintro (⟨j, hj⟩ | ⟨dd, hdd⟩)
  · exact Except.noConfusion hj
  · injection hdd with h2
    exact PyErr.noConfusion h2

/-- **C4, amended.** On a validly signed HS256 token, a payload segment
whose base64url-decode-then-JSON-parse fails is *not* uniformly wrapped:
exactly the `json.JSONDecodeError` failures become
`TokenError("Token payload invalid")`, and every other failure — the
`binascii.Error` of an undecodable segment, the `UnicodeDecodeError` of
non-UTF-8 bytes — escapes `decode_token` unwrapped. -/
theorem claim_C4_amended_payload_errors (lib : CryptoBackend) (fs : FS) (settings : Settings)
    (halg : settings.jwt_algorithm = pystr "HS256")
    (h p : List Nat) (hh : NoDot h) (hp : NoDot p) (d : List Nat)
    (hd : hmac_sha256_str settings.jwt_secret (h ++ 46 :: p) = .ok d)
    (e : PyErr) (he : (urlsafe_b64decode p).bind jsonLoadsBytes = .error e) (now : ℚ) :
    (decode_token lib fs settings now (h ++ 46 :: (p ++ 46 :: urlsafe_b64encode d))).1
      = (if e.isJSONDecodeError then .error (.tokenError .payloadInvalid) else .error e) := by
  have hns : ¬ settings.jwt_algorithm = pystr "RS256" := by rw [halg]; decide
  unfold decode_token
  dsimp only
  rw [get_secret_not_rs256 lib fs settings hns]
  dsimp only
  rw [pyBind_ok]
  dsimp only
  rw [halg]
  rw [decode_jwt_hs256_validsig h p hh hp _ d hd none now]
  unfold decodePayloadPhase
  rw [he]

/-- **C4 amended, witnessed.** A validly signed token whose payload
segment decodes to the non-JSON byte `@` fails with exactly
`TokenError("Token payload invalid")`. -/
theorem claim_C4_amended_payload_errors_witness :
    (decode_token emptyBackend emptyFS hs256Settings 0
        (pystr "h" ++ 46 :: (urlsafe_b64encode [64]
          ++ 46 :: urlsafe_b64encode (hmacSha256 testSecret
              (pystr "h" ++ 46 :: urlsafe_b64encode [64]))))).1
      = .error (.tokenError .payloadInvalid) := by
  have hd := hmac_sha256_str_ascii testSecret (pystr "h" ++ 46 :: urlsafe_b64encode [64])
    (by decide) (by decide)
  have hc := claim_C4_amended_payload_errors emptyBackend emptyFS hs256Settings rfl
    (pystr "h") (urlsafe_b64encode [64]) (by unfold NoDot; decide) (by unfold NoDot; decide)
    _ hd (.valueError .jsonDecode) rfl 0
  rw [hc]
  rfl

/-- RS256 configured but the private-key path unset: every call to
`_get_secret_and_algorithm` fails with `TokenError`, reading no file. -/
theorem get_secret_rs256_nopath (lib : CryptoBackend) (fs : FS) (settings : Settings)
    (halg : settings.jwt_algorithm = pystr "RS256")
    (hnopath : settings.jwt_rsa_private_key_path = none) :
    get_secret_and_algorithm lib fs settings
      = (.error (.tokenError .rs256RequiresKeyPaths), []) := by
  unfold get_secret_and_algorithm
  rw [if_pos halg, hnopath]
  rw [if_neg (by simp [truthyOpt])]

/-- RS256 with both paths configured and readable keys: every call
re-opens both key files, in order. -/
theorem get_secret_rs256_paths (lib : CryptoBackend) (fs : FS) (settings : Settings)
    (halg : settings.jwt_algorithm = pystr "RS256")
    (priv pub : List Nat)
    (hpriv : settings.jwt_rsa_private_key_path = some priv)
    (hpub : settings.jwt_rsa_public_key_path = some pub)
    (hprivne : priv ≠ []) (hpubne : pub ≠ [])
    (pb : List Nat) (hfspriv : fs priv = some pb)
    (sk : RSAPrivateKey) (hsk : lib.load_pem_private_key pb = some sk)
    (qb : List Nat) (hfspub : fs pub = some qb)
    (pk : RSAPublicKey) (hpk : lib.load_pem_public_key qb = some pk) :
    get_secret_and_algorithm lib fs settings
      = (.ok ⟨settings.jwt_secret, settings.jwt_algorithm, some sk, some pk⟩, [priv, pub]) := by
  unfold get_secret_and_algorithm
  rw [if_pos halg, hpriv, hpub]
  rw [if_pos (by
    simp [truthyOpt, List.isEmpty_eq_false.mpr hprivne, List.isEmpty_eq_false.mpr hpubne])]
  dsimp only
  rw [hfspriv]
  dsimp only
  rw [hsk]
  dsimp only
  rw [hfspub]
  dsimp only
  rw [hpk]

/-- **C5, counterexample.** With RS256 selected and no key paths
configured, startup validation succeeds (`Settings.__init__` checks only
the JWT secret) and the failure instead surfaces on *each*
`decode_token` request as `TokenError`; and with paths configured, a
`decode_token` call performed at any time reads both key files itself —
the key material is neither validated at startup nor cached. -/
theorem claim_C5_keyload_counterexample :
    settingsInit rs256NoPathSettings = .started rs256NoPathSettings
    ∧ (decode_token emptyBackend emptyFS rs256NoPathSettings 0 (pystr "a.b.c")).1
        = .error (.tokenError .rs256RequiresKeyPaths)
    ∧ (decode_token sampleBackend sampleFS rs256PathSettings 0 (pystr "a.b.c")).2
        = [pystr "keys/jwtRS256.key", pystr "keys/jwtRS256.key.pub"]
    ∧ (create_access_token sampleBackend sampleFS rs256PathSettings 0
          (pystr "alice") (pystr "admin")).2
        = [pystr "keys/jwtRS256.key", pystr "keys/jwtRS256.key.pub"] := by
  refine ⟨by unfold settingsInit; rw [if_neg (by decide)], ?_, ?_, ?_⟩
  · unfold decode_token
    dsimp only
    rw [get_secret_rs256_nopath emptyBackend emptyFS rs256NoPathSettings rfl rfl]
    rfl
  · unfold decode_token
    dsimp only
    rw [get_secret_rs256_paths sampleBackend sampleFS rs256PathSettings rfl
      (pystr "keys/jwtRS256.key") (pystr "keys/jwtRS256.key.pub") rfl rfl
      (by decide) (by decide) [] rfl ⟨fun m => m⟩ rfl [] rfl ⟨fun _ _ => true⟩ rfl]
  · unfold create_access_token
    dsimp only
    rw [get_secret_rs256_paths sampleBackend sampleFS rs256PathSettings rfl
      (pystr "keys/jwtRS256.key") (pystr "keys/jwtRS256.key.pub") rfl rfl
      (by decide) (by decide) [] rfl ⟨fun m => m⟩ rfl [] rfl ⟨fun _ _ => true⟩ rfl]

/-- **C5, amended.** The key material is *not* cached and missing key
configuration does *not* fail at startup: for every RS256 configuration
whose private-key path is unset but whose secret passes the only startup
check, the process starts, and each `decode_token` or `create_token`
request then fails anew with `TokenError` (`"RS256 requires
private/public key paths"`); with both paths set and readable, every
single call re-opens both key files. -/
theorem claim_C5_keyload_per_request (lib : CryptoBackend) (fs : FS)
    (settings settings2 : Settings)
    (halg : settings.jwt_algorithm = pystr "RS256")
    (hnopath : settings.jwt_rsa_private_key_path = none)
    (hsecret : ¬(settings.jwt_secret = pystr "change-me" ∨ settings.jwt_secret = []
      ∨ settings.jwt_secret.length < 32))
    (now : ℚ) (token subject role : List Nat)
    (halg2 : settings2.jwt_algorithm = pystr "RS256")
    (priv pub : List Nat)
    (hpriv : settings2.jwt_rsa_private_key_path = some priv)
    (hpub : settings2.jwt_rsa_public_key_path = some pub)
    (hprivne : priv ≠ []) (hpubne : pub ≠ [])
    (pb : List Nat) (hfspriv : fs priv = some pb)
    (sk : RSAPrivateKey) (hsk : lib.load_pem_private_key pb = some sk)
    (qb : List Nat) (hfspub : fs pub = some qb)
    (pk : RSAPublicKey) (hpk : lib.load_pem_public_key qb = some pk) :
    settingsInit settings = .started settings
    ∧ (decode_token lib fs settings now token).1
        = .error (.tokenError .rs256RequiresKeyPaths)
    ∧ (create_access_token lib fs settings now subject role).1
        = .error (.tokenError .rs256RequiresKeyPaths)
    ∧ (decode_token lib fs settings2 now token).2 = [priv, pub]
    ∧ (create_access_token lib fs settings2 now subject role).2 = [priv, pub] := by
  refine ⟨by unfold settingsInit; rw [if_neg hsecret], ?_, ?_, ?_, ?_⟩
  · unfold decode_token
    dsimp only
    rw [get_secret_rs256_nopath lib fs settings halg hnopath]
    rfl
  · unfold create_access_token
    dsimp only
    rw [get_secret_rs256_nopath lib fs settings halg hnopath]
    rfl
  · unfold decode_token
    dsimp only
    rw [get_secret_rs256_paths lib fs settings2 halg2 priv pub hpriv hpub hprivne hpubne
      pb hfspriv sk hsk qb hfspub pk hpk]
  · unfold create_access_token
    dsimp only
    rw [get_secret_rs256_paths lib fs settings2 halg2 priv pub hpriv hpub hprivne hpubne
      pb hfspriv sk hsk qb hfspub pk hpk]

/-- **C5 amended, witnessed.** The concrete RS256 configurations: one
with no paths (starts up, then fails each request), one with both paths
on a filesystem of empty readable files (reads both files on each
call). -/
theorem claim_C5_keyload_per_request_witness :
    settingsInit rs256NoPathSettings = .started rs256NoPathSettings
    ∧ (decode_token sampleBackend sampleFS rs256NoPathSettings 7 (pystr "t")).1
        = .error (.tokenError .rs256RequiresKeyPaths)
    ∧ (create_access_token sampleBackend sampleFS rs256NoPathSettings 7
          (pystr "s") (pystr "r")).1
        = .error (.tokenError .rs256RequiresKeyPaths)
    ∧ (decode_token sampleBackend sampleFS rs256PathSettings 7 (pystr "t")).2
        = [pystr "keys/jwtRS256.key", pystr "keys/jwtRS256.key.pub"]
    ∧ (create_access_token sampleBackend sampleFS rs256PathSettings 7
          (pystr "s") (pystr "r")).2
        = [pystr "keys/jwtRS256.key", pystr "keys/jwtRS256.key.pub"] :=
  claim_C5_keyload_per_request sampleBackend sampleFS rs256NoPathSettings rs256PathSettings
    rfl rfl (by decide) 7 (pystr "t") (pystr "s") (pystr "r") rfl
    (pystr "keys/jwtRS256.key") (pystr "keys/jwtRS256.key.pub") rfl rfl
    (by decide) (by decide) [] rfl ⟨fun m => m⟩ rfl [] rfl ⟨fun _ _ => true⟩ rfl

/-- **C8, counterexample.** `jwt_exp_minutes` is env-configurable with no
validator, and `config.py` accepts `0`: a token minted then has
`exp = iat` — decoded here as `iat = 0`, `exp = 0` — violating "expiry
strictly greater than issued-at under every configuration". -/
theorem claim_C8_exp_gt_iat_counterexample :
    ∃ token,
      (create_access_token emptyBackend emptyFS zeroMinuteSettings 0
          (pystr "alice") (pystr "admin")).1 = .ok token
      ∧ (decode_token emptyBackend emptyFS zeroMinuteSettings 0 token).1
          = .ok (.obj [(pystr "sub", PyJson.str (pystr "alice")),
              (pystr "role", PyJson.str (pystr "admin")),
              (pystr "type", PyJson.str (pystr "access")),
              (pystr "iat", PyJson.num 0), (pystr "exp", PyJson.num 0)])
      ∧ ¬ ((0 : Int) < 0) := by
  obtain ⟨token, htok⟩ := create_access_token_hs256_ok emptyBackend emptyFS zeroMinuteSettings
    rfl (by decide) 0 (pystr "alice") (pystr "admin")
  have hdec := decode_of_create_access_hs256 emptyBackend emptyFS zeroMinuteSettings rfl
    (pystr "alice") (pystr "admin") (by decide) (by decide) 0 0 token htok
    (by norm_num [pyIntTrunc, zeroMinuteSettings])
  refine ⟨token, htok, ?_, by omega⟩
  rw [hdec]
  norm_num [pyIntTrunc, zeroMinuteSettings]

/-- **C8, amended.** Under every configuration whose lifetimes are at
least one minute / one day — the defaults are 60 and 30 — each minted
access and refresh token decodes to a payload whose `exp` strictly
exceeds its `iat`.  (With a zero-minute lifetime, which the
configuration accepts, `exp` equals `iat` instead.) -/
theorem claim_C8_amended_exp_gt_iat (lib : CryptoBackend) (fs : FS) (settings : Settings)
    (halg : settings.jwt_algorithm = pystr "HS256")
    (hmin : 1 ≤ settings.jwt_exp_minutes) (hdays : 1 ≤ settings.jwt_refresh_exp_days)
    (subject role : List Nat) (hsub : ValidStr subject) (hrole : ValidStr role)
    (now : ℚ) (tokenA tokenR : List Nat)
    (htokA : (create_access_token lib fs settings now subject role).1 = .ok tokenA)
    (htokR : (create_refresh_token lib fs settings now subject role).1 = .ok tokenR) :
    ∃ msA msR,
      (decode_token lib fs settings now tokenA).1 = .ok (.obj msA) ∧
      (∃ i e : Int, dictGet msA (pystr "iat") = some (.num i) ∧
        dictGet msA (pystr "exp") = some (.num e) ∧ i < e) ∧
      (decode_token lib fs settings now tokenR).1 = .ok (.obj msR) ∧
      (∃ i e : Int, dictGet msR (pystr "iat") = some (.num i) ∧
        dictGet msR (pystr "exp") = some (.num e) ∧ i < e) := by
  have hmQ : (1 : ℚ) ≤ (settings.jwt_exp_minutes : ℚ) := by exact_mod_cast hmin
  have hdQ : (1 : ℚ) ≤ (settings.jwt_refresh_exp_days : ℚ) := by exact_mod_cast hdays
  have hfrA : now ≤ (pyIntTrunc (now + 60 * (settings.jwt_exp_minutes : ℚ)) : ℚ) := by
    have h2 := pyIntTrunc_gt_sub_one (now + 60 * (settings.jwt_exp_minutes : ℚ))
    linarith
  have hfrR : now ≤ (pyIntTrunc (now + 86400 * (settings.jwt_refresh_exp_days : ℚ)) : ℚ) := by
    have h2 := pyIntTrunc_gt_sub_one (now + 86400 * (settings.jwt_refresh_exp_days : ℚ))
    linarith
  have hdecA := decode_of_create_access_hs256 lib fs settings halg subject role hsub hrole
    now now tokenA htokA hfrA
  have hdecR := decode_of_create_refresh_hs256 lib fs settings halg subject role hsub hrole
    now now tokenR htokR hfrR
  exact ⟨_, _, hdecA,
    ⟨pyIntTrunc now, pyIntTrunc (now + 60 * (settings.jwt_exp_minutes : ℚ)), rfl, rfl,
      pyIntTrunc_add_lt now _ (by linarith)⟩,
    hdecR,
    ⟨pyIntTrunc now, pyIntTrunc (now + 86400 * (settings.jwt_refresh_exp_days : ℚ)), rfl, rfl,
      pyIntTrunc_add_lt now _ (by linarith)⟩⟩

/-- **C8 amended, witnessed.** Concrete access and refresh tokens minted
at time 0 under the default settings both decode to payloads with
`iat < exp`. -/
theorem claim_C8_amended_exp_gt_iat_witness :
    ∃ tokenA tokenR msA msR,
      (create_access_token emptyBackend emptyFS hs256Settings 0
          (pystr "alice") (pystr "admin")).1 = .ok tokenA ∧
      (create_refresh_token emptyBackend emptyFS hs256Settings 0
          (pystr "alice") (pystr "admin")).1 = .ok tokenR ∧
      (decode_token emptyBackend emptyFS hs256Settings 0 tokenA).1 = .ok (.obj msA) ∧
      (∃ i e : Int, dictGet msA (pystr "iat") = some (.num i) ∧
        dictGet msA (pystr "exp") = some (.num e) ∧ i < e) ∧
      (decode_token emptyBackend emptyFS hs256Settings 0 tokenR).1 = .ok (.obj msR) ∧
      (∃ i e : Int, dictGet msR (pystr "iat") = some (.num i) ∧
        dictGet msR (pystr "exp") = some (.num e) ∧ i < e) := by
  obtain ⟨tokenA, htokA⟩ := create_access_token_hs256_ok emptyBackend emptyFS hs256Settings
    rfl (by decide) 0 (pystr "alice") (pystr "admin")
  obtain ⟨tokenR, htokR⟩ := create_refresh_token_hs256_ok emptyBackend emptyFS hs256Settings
    rfl (by decide) 0 (pystr "alice") (pystr "admin")
  obtain ⟨msA, msR, h1, h2, h3, h4⟩ := claim_C8_amended_exp_gt_iat emptyBackend emptyFS
    hs256Settings rfl (by decide) (by decide) (pystr "alice") (pystr "admin")
    (by decide) (by decide) 0 tokenA tokenR htokA htokR
  exact ⟨tokenA, tokenR, msA, msR, htokA, htokR, h1, h2, h3, h4⟩

/-! ## The bcrypt layer (C9, C10) -/

/-- `Except.bind` on a failure. -/
theorem pyBind_err {α β : Type} (e : PyErr) (f : α → Except PyErr β) :
    (Except.error e : Except PyErr α).bind f = .error e := rfl

/-- `Except.map` on a failure. -/
theorem pyMap_err {α β : Type} (e : PyErr) (f : α → β) :
    (Except.error e : Except PyErr α).map f = .error e := rfl

/-- One step of the salt-header parse at the right shape. -/
theorem parseBcryptSalt_cons (v c1 c2 : Nat) (rest : List Nat) :
    parseBcryptSalt (36 :: 50 :: v :: 36 :: c1 :: c2 :: 36 :: rest) =
      if (v = 97 ∨ v = 98 ∨ v = 120 ∨ v = 121)
          ∧ (48 ≤ c1 ∧ c1 ≤ 57) ∧ (48 ≤ c2 ∧ c2 ≤ 57)
          ∧ 22 ≤ rest.length
          ∧ (rest.take 22).all (fun c =>
              c = 46 ∨ c = 47 ∨ (48 ≤ c ∧ c ≤ 57) ∨ (65 ≤ c ∧ c ≤ 90) ∨ (97 ≤ c ∧ c ≤ 122)) then
        some (v, (c1 - 48) * 10 + (c2 - 48), rest.take 22)
      else none := rfl

/-- What a successful salt parse guarantees about its pieces. -/
theorem parseBcryptSalt_inv (s : List Nat) (v cost : Nat) (s22 : List Nat)
    (h : parseBcryptSalt s = some (v, cost, s22)) :
    (v = 97 ∨ v = 98 ∨ v = 120 ∨ v = 121) ∧ cost < 100 ∧ s22.length = 22 ∧
      s22.all (fun c =>
        c = 46 ∨ c = 47 ∨ (48 ≤ c ∧ c ≤ 57) ∨ (65 ≤ c ∧ c ≤ 90) ∨ (97 ≤ c ∧ c ≤ 122)) = true := by
  unfold parseBcryptSalt at h
  split at h
  · split_ifs at h with hc
    injection h with h2
    simp only [Prod.mk.injEq] at h2
    obtain ⟨h3, h4, h5⟩ := h2
    subst h3
    subst h4
    subst h5
    refine ⟨hc.1, by omega, ?_, hc.2.2.2.2⟩
    rw [List.length_take]
    omega
  · exact Option.noConfusion h

/-- Re-parsing a rebuilt header (with anything appended, as `checkpw`
does with the digest) recovers the parsed fields. -/
theorem parseBcryptSalt_header (v cost : Nat) (s22 tail : List Nat)
    (hv : v = 97 ∨ v = 98 ∨ v = 120 ∨ v = 121) (hcost : cost < 100)
    (hlen : s22.length = 22)
    (halpha : s22.all (fun c =>
      c = 46 ∨ c = 47 ∨ (48 ≤ c ∧ c ≤ 57) ∨ (65 ≤ c ∧ c ≤ 90) ∨ (97 ≤ c ∧ c ≤ 122)) = true) :
    parseBcryptSalt (bcryptHeader v cost s22 ++ tail) = some (v, cost, s22) := by
  have htake : (s22 ++ tail).take 22 = s22 := by
    rw [← hlen]
    exact List.take_left s22 tail
  have hshape : bcryptHeader v cost s22 ++ tail
      = 36 :: 50 :: v :: 36 :: (48 + cost / 10 % 10) :: (48 + cost % 10) :: 36 :: (s22 ++ tail) := by
    simp [bcryptHeader]
  rw [hshape, parseBcryptSalt_cons]
  rw [if_pos ⟨hv, ⟨by omega, by omega⟩, ⟨by omega, by omega⟩,
    by rw [List.length_append]; omega, by rw [htake]; exact halpha⟩]
  rw [htake]
  have harith : (48 + cost / 10 % 10 - 48) * 10 + (48 + cost % 10 - 48) = cost := by omega
  rw [harith]

/-- Every byte of a rebuilt hash (header plus an ASCII NUL-free digest)
is ASCII and non-NUL. -/
theorem bcryptHeader_append_bytes (v cost : Nat) (s22 digest : List Nat)
    (hv : v = 97 ∨ v = 98 ∨ v = 120 ∨ v = 121)
    (halpha : s22.all (fun c =>
      c = 46 ∨ c = 47 ∨ (48 ≤ c ∧ c ≤ 57) ∨ (65 ≤ c ∧ c ≤ 90) ∨ (97 ≤ c ∧ c ≤ 122)) = true)
    (hdig : ∀ b ∈ digest, b < 128 ∧ b ≠ 0) :
    ∀ c ∈ bcryptHeader v cost s22 ++ digest, c < 128 ∧ c ≠ 0 := by
  intro c hc
  simp only [bcryptHeader, List.mem_append, List.mem_cons] at hc
  rcases hc with (rfl | rfl | rfl | rfl | rfl | rfl | rfl | hc) | hc
  · exact ⟨by omega, by omega⟩
  · exact ⟨by omega, by omega⟩
  · rcases hv with rfl | rfl | rfl | rfl <;> exact ⟨by omega, by omega⟩
  · exact ⟨by omega, by omega⟩
  · exact ⟨by omega, by omega⟩
  · exact ⟨by omega, by omega⟩
  · exact ⟨by omega, by omega⟩
  · have := List.all_eq_true.mp halpha c hc
    simp only [decide_eq_true_eq] at this
    rcases this with h | h | h | h | h <;> exact ⟨by omega, by omega⟩
  · exact hdig c hc

/-- `contains 0` is false on NUL-free lists. -/
theorem contains_zero_eq_false (l : List Nat) (h : 0 ∉ l) : l.contains 0 = false := by
  cases hc : l.contains 0 with
  | false => rfl
  | true =>
    rw [List.contains_eq_any_beq, List.any_eq_true] at hc
    rcases hc with ⟨x, hx, hbeq⟩
    simp only [beq_iff_eq] at hbeq
    subst hbeq
    exact absurd hx h

/-- `str.encode("utf-8")` fails only with `UnicodeEncodeError`. -/
theorem pyEncodeUtf8_error (s : List Nat) (e : PyErr) (h : pyEncodeUtf8 s = .error e) :
    e = .valueError .unicodeEncode := by
  unfold pyEncodeUtf8 at h
  split_ifs at h
  injection h with h2
  exact h2.symm

/-- `bcrypt.hashpw` fails only with `ValueError`. -/
theorem hashpw_error (core : BcryptCore) (pw salt : List Nat) (e : PyErr)
    (h : hashpw core pw salt = .error e) : e = .valueError .plain := by
  unfold hashpw at h
  split_ifs at h
  · injection h with h2
    exact h2.symm
  · split at h
    · injection h with h2
      exact h2.symm
    · exact Except.noConfusion h

/-- `bcrypt.checkpw` fails only with `ValueError`. -/
theorem checkpw_error (core : BcryptCore) (pw hsd : List Nat) (e : PyErr)
    (h : checkpw core pw hsd = .error e) : e = .valueError .plain := by
  unfold checkpw at h
  split_ifs at h
  · injection h with h2
    exact h2.symm
  · cases h3 : hashpw core pw hsd with
    | ok r =>
      rw [h3, pyMap_ok] at h
      exact Except.noConfusion h
    | error e3 =>
      rw [h3, pyMap_err] at h
      injection h with h4
      rw [← h4]
      exact hashpw_error core pw hsd e3 h3

/-- **C9, counterexample.** `"\x00"` is a password string on which
`get_password_hash` does *not* succeed: bcrypt's NUL check raises
`ValueError`, which `get_password_hash` does not catch — refuting "the
hash call itself succeeds for all passwords". -/
theorem claim_C9_hash_nul_counterexample :
    get_password_hash sampleBcrypt sampleSalt [0] = .error (.valueError .plain) := rfl

/-- **C9, amended.** For every password free of NUL code points (and every
well-formed salt and NUL-free-ASCII-digest bcrypt core), hashing succeeds
and verifying the password against its own hash returns `true`; a
password containing `"\x00"`, however, makes `get_password_hash` raise
`ValueError`. -/
theorem claim_C9_roundtrip_verifies (core : BcryptCore)
    (hcore : ∀ v c s q, ∀ b ∈ core.digest v c s q, b < 128 ∧ b ≠ 0)
    (salt : List Nat) (v cost : Nat) (s22 : List Nat)
    (hsalt : parseBcryptSalt salt = some (v, cost, s22))
    (p : List Nat) (hp : ValidStr p) (hnul : 0 ∉ p) :
    ∃ hash, get_password_hash core salt p = .ok hash ∧
      verify_password core p hash = .ok true := by
  obtain ⟨hv, hcost, hlen, halpha⟩ := parseBcryptSalt_inv salt v cost s22 hsalt
  have hpb := pyEncodeUtf8_of_valid p hp
  have hpbNul : ((p.map utf8EncodeChar).flatten).contains 0 = false := by
    cases hc : ((p.map utf8EncodeChar).flatten).contains 0 with
    | false => rfl
    | true => exact absurd hc (utf8_flatten_no_nul p hnul)
  have hhashBytes := bcryptHeader_append_bytes v cost s22
    (core.digest v cost s22 (((p.map utf8EncodeChar).flatten).take 72)) hv halpha
    (hcore v cost s22 (((p.map utf8EncodeChar).flatten).take 72))
  have hhashNul : (bcryptHeader v cost s22
      ++ core.digest v cost s22 (((p.map utf8EncodeChar).flatten).take 72)).contains 0 = false :=
    contains_zero_eq_false _ (fun hmem => (hhashBytes 0 hmem).2 rfl)
  have hhash : get_password_hash core salt p
      = .ok (bcryptHeader v cost s22
          ++ core.digest v cost s22 (((p.map utf8EncodeChar).flatten).take 72)) := by
    unfold get_password_hash
    rw [hpb, pyBind_ok]
    unfold hashpw
    rw [hpbNul, if_neg (by decide), hsalt]
  refine ⟨_, hhash, ?_⟩
  unfold verify_password
  rw [hpb, pyBind_ok]
  rw [pyEncodeUtf8_ascii _ (fun c hc => (hhashBytes c hc).1), pyBind_ok]
  unfold checkpw
  rw [hpbNul, hhashNul, if_neg (by decide)]
  unfold hashpw
  rw [hpbNul, if_neg (by decide)]
  rw [parseBcryptSalt_header v cost s22 _ hv hcost hlen halpha]
  rw [show (some (v, cost, s22)) = some (v, cost, s22) from rfl]
  dsimp only
  rw [pyMap_ok, beq_self_eq_true]

/-- **C9 amended, witnessed.** `hunter2` hashes under the constant-digest
core and the sample salt, and verifies against its own hash. -/
theorem claim_C9_roundtrip_verifies_witness :
    ∃ hash, get_password_hash constBcrypt sampleSalt (pystr "hunter2") = .ok hash ∧
      verify_password constBcrypt (pystr "hunter2") hash = .ok true :=
  claim_C9_roundtrip_verifies constBcrypt
    (by
      intro v c s q b hb
      simp only [constBcrypt] at hb
      rw [List.mem_replicate] at hb
      omega)
    sampleSalt 98 12 (pystr "abcdefghijklmnopqrstuv") rfl
    (pystr "hunter2") (by decide) (by decide)

/-- **C10.** `verify_password` never raises: on every password and every
stored string it returns a boolean — all failures of the encode/bcrypt
pipeline are `ValueError`s, which it catches as `False`.  In particular
a stored string that does not parse as a bcrypt hash (malformed or
foreign) yields `False`. -/
theorem claim_C10_malformed_hash_false (core : BcryptCore) (pw hsd : List Nat) :
    (∃ b, verify_password core pw hsd = .ok b)
    ∧ (∀ hb, pyEncodeUtf8 hsd = .ok hb → parseBcryptSalt hb = none →
        verify_password core pw hsd = .ok false) := by
  constructor
  · unfold verify_password
    cases hres : (pyEncodeUtf8 pw).bind (fun pb =>
        (pyEncodeUtf8 hsd).bind (fun hb => checkpw core pb hb)) with
    | ok b => exact ⟨b, rfl⟩
    | error e =>
      have he : e.isValueError = true := by
        cases h1 : pyEncodeUtf8 pw with
        | error e1 =>
          rw [h1, pyBind_err] at hres
          injection hres with h2
          subst h2
          rw [pyEncodeUtf8_error pw e1 h1]
          rfl
        | ok pb =>
          rw [h1, pyBind_ok] at hres
          cases h2 : pyEncodeUtf8 hsd with
          | error e2 =>
            rw [h2, pyBind_err] at hres
            injection hres with h3
            subst h3
            rw [pyEncodeUtf8_error hsd e2 h2]
            rfl
          | ok hb =>
            rw [h2, pyBind_ok] at hres
            rw [checkpw_error core pb hb e hres]
            rfl
      exact ⟨false, by simp [he]⟩
  · intro hb h1 h2
    unfold verify_password
    cases h3 : pyEncodeUtf8 pw with
    | error e1 =>
      rw [pyBind_err, pyEncodeUtf8_error pw e1 h3]
      rfl
    | ok pb =>
      rw [pyBind_ok, h1, pyBind_ok]
      unfold checkpw
      cases h4 : (pb.contains 0 || hb.contains 0) with
      | true =>
        rw [if_pos rfl]
        rfl
      | false =>
        rw [if_neg (by decide)]
        unfold hashpw
        cases h5 : pb.contains 0 with
        | true =>
          rw [if_pos rfl]
          rfl
        | false =>
          rw [if_neg (by decide), h2]
          rfl

/-- **C10, witnessed.** `verify_password("anything", "not-a-real-hash")`
returns `False` without raising. -/
theorem claim_C10_malformed_hash_false_witness :
    verify_password sampleBcrypt (pystr "anything") (pystr "not-a-real-hash") = .ok false :=
  (claim_C10_malformed_hash_false sampleBcrypt (pystr "anything") (pystr "not-a-real-hash")).2
    (pystr "not-a-real-hash")
    (pyEncodeUtf8_ascii (pystr "not-a-real-hash") (by decide)) rfl

end AIAssessment
